import Mathlib

/-!
# pb-for-desktop: the interception and stream-decoding core

A shallow embedding of `app/scripts/renderer/webviews/pushbullet-webview.js` (the
interceptors, the websocket message handler, the pollers) and of
`app/scripts/main/managers/configuration-manager.js` (the settings registry).

Modelling decisions, all of them about the JavaScript language rather than about the
repository:

* JavaScript values are the data values the handlers can observe (`JSVal`).  Objects and
  arrays carry an address, so that `===` on them is reference identity.  Numbers are the
  rational ones plus `NaN`; no handler does arithmetic.
* A read of a property of `undefined` or `null` raises a `TypeError`; a read of a missing
  property yields `undefined`.
* `filter` is the built-in method of `Array.prototype`.  `hasOwnProperty` is the built-in
  method of `Object.prototype` unless the value has an own property of that name; no value of
  the model is a function, so a call of the own property raises a `TypeError`.
* `JSON.parse` and `pb.e2e.decrypt` are collaborators of the handlers and are parameters of
  the model (`Host`).
* The collaborators `logger`, `Notification`, `pbPush.enqueuePush` and
  `pbClipboard.receiveClip` are recorded in a trace of calls (`Call`) and return normally.
* The persistence collaborator `electronSettings` keeps the settings in a file of JSON text
  and addresses them by key paths; `_.defaultsDeep` is modelled for sources made of
  primitives and plain objects; `parseFloat` is a parameter.
* Time is counted in milliseconds for the debounced writes and in ticks of the timer for the
  pollers.
-/

namespace PbForDesktop

/-! ## Values -/

/-- JavaScript values. `arr` and `obj` carry the address of the object. -/
inductive JSVal where
  | undefined
  | null
  | bool (b : Bool)
  | num (n : ℚ)
  | nan
  | str (s : String)
  | arr (addr : Nat) (items : List JSVal)
  | obj (addr : Nat) (props : List (String × JSVal))

/-- The own data properties of a plain object, in insertion order. -/
abbrev Props := List (String × JSVal)

/-- A thrown value: the `name` and the `message` of the error object. -/
structure JSError where
  name : String
  message : String

/-- The `TypeError` of a property read on `undefined` or `null`, or of a call of a
non-function. -/
def typeError : JSError := ⟨"TypeError", "Cannot read properties of undefined or null"⟩

/-- ToBoolean: `undefined`, `null`, `false`, `0`, `NaN` and the empty string are falsy. -/
def toBoolean : JSVal → Bool
  | .undefined => false
  | .null => false
  | .bool b => b
  | .num n => decide (n ≠ 0)
  | .nan => false
  | .str s => decide (s ≠ "")
  | .arr _ _ => true
  | .obj _ _ => true

/-- The operator `===`: by value on primitives (`NaN` equals nothing), by address on
objects and arrays. -/
def strictEq : JSVal → JSVal → Bool
  | .undefined, .undefined => true
  | .null, .null => true
  | .bool a, .bool b => decide (a = b)
  | .num a, .num b => decide (a = b)
  | .str a, .str b => decide (a = b)
  | .arr a _, .arr b _ => decide (a = b)
  | .obj a _, .obj b _ => decide (a = b)
  | _, _ => false

/-- The array index a property key denotes, when it is a canonical numeric string. -/
def canonicalIndex (key : String) : Option Nat :=
  let cs := key.data
  if cs ≠ [] ∧ cs.all Char.isDigit = true ∧ (cs.length = 1 ∨ cs.head? ≠ some '0') then
    some (cs.foldl (fun n c => 10 * n + (c.toNat - 48)) 0)
  else
    none

/-- Read of an own or inherited data property of an array or of a string: `length` and the
indices. -/
def indexedGet (length : Nat) (item : Nat → Option JSVal) (key : String) : JSVal :=
  if key = "length" then .num length
  else
    match canonicalIndex key with
    | some i => (item i).getD .undefined
    | none => .undefined

/-- The property read `v.key` or `v[key]`. -/
def getProp (v : JSVal) (key : String) : Except JSError JSVal :=
  match v with
  | .undefined => .error typeError
  | .null => .error typeError
  | .obj _ props => .ok ((props.lookup key).getD .undefined)
  | .arr _ items => .ok (indexedGet items.length (fun i => items.get? i) key)
  | .str s => .ok (indexedGet s.length (fun i => (s.data.get? i).map (fun c => .str (String.singleton c))) key)
  | _ => .ok .undefined

/-- The chained read `v.k1.k2...`. -/
def getPath (v : JSVal) : List String → Except JSError JSVal
  | [] => .ok v
  | k :: ks =>
    match getProp v k with
    | .error e => .error e
    | .ok w => getPath w ks

/-- Whether `key` is an own property of `v`. -/
def hasOwn (v : JSVal) (key : String) : Bool :=
  match v with
  | .obj _ props => props.any (fun p => p.1 == key)
  | .arr _ items =>
    key == "length" ||
      (match canonicalIndex key with
       | some i => decide (i < items.length)
       | none => false)
  | .str s =>
    key == "length" ||
      (match canonicalIndex key with
       | some i => decide (i < s.length)
       | none => false)
  | _ => false

/-- The call `v.hasOwnProperty(key)`: the built-in method, unless `v` is `undefined` or
`null`, or `v` has an own property `hasOwnProperty`, which is then what is called. -/
def hasOwnProperty (v : JSVal) (key : String) : Except JSError Bool :=
  match v with
  | .undefined => .error typeError
  | .null => .error typeError
  | _ => if hasOwn v "hasOwnProperty" then .error typeError else .ok (hasOwn v key)

/-- The plain write `obj[key] = value` on an object of data properties. -/
def setProp : Props → String → JSVal → Props
  | [], key, value => [(key, value)]
  | (k, w) :: rest, key, value =>
    if k == key then (k, value) :: rest else (k, w) :: setProp rest key value

/-! ## Collaborators -/

/-- The built-ins and the external client functions the handlers call. -/
structure Host where
  /-- Models `JSON.parse`. -/
  jsonParse : JSVal → Except JSError JSVal
  /-- Models the conversion of a value to a property key in `objs[targetIden]`. -/
  toPropertyKey : JSVal → String
  /-- Models `pb.e2e.decrypt`. -/
  decrypt : JSVal → Except JSError JSVal

/-- One call of a collaborator. -/
inductive Call where
  | loggerDebug (args : List JSVal)
  | loggerWarn (args : List JSVal)
  | showNotification (title : String)
  | enqueuePush (args : List JSVal)
  | receiveClip (args : List JSVal)

/-- Whether a call is a call of `pbPush.enqueuePush`. -/
def Call.isEnqueue : Call → Bool
  | .enqueuePush _ => true
  | _ => false

/-- Whether a call is a call of `pbPush.enqueuePush` or of `pbClipboard.receiveClip`. -/
def Call.isDispatch : Call → Bool
  | .enqueuePush _ => true
  | .receiveClip _ => true
  | _ => false

/-! ## appIsTargeted -/

/-- Models `appIsTargeted(targetIden)`: `true` when the device stored under `targetIden` has
model `pb-for-desktop`, `undefined` otherwise. -/
def appIsTargeted (h : Host) (pb targetIden : JSVal) : Except JSError JSVal := do
  let api ← getProp pb "api"
  let targetDeviceModel ←
    if toBoolean api then do
      let devices ← getProp api "devices"
      if toBoolean devices then do
        let objs ← getProp devices "objs"
        if toBoolean objs then do
          let device ← getProp objs (h.toPropertyKey targetIden)
          if toBoolean device then getProp device "model" else pure device
        else pure objs
      else pure devices
    else pure api
  if strictEq targetDeviceModel (.str "pb-for-desktop") then pure (.bool true)
  else pure .undefined

/-! ## The interceptors -/

/-- The callback of `filter` applied along the list: keeps the items `x` with
`x.iden === value.iden`. -/
def filterIden (value : JSVal) : List JSVal → Except JSError (List JSVal)
  | [] => .ok []
  | x :: xs => do
    let a ← getProp x "iden"
    let b ← getProp value "iden"
    let rest ← filterIden value xs
    if strictEq a b then pure (x :: rest) else pure rest

/-- Models `Boolean(pb.api.<coll>.all.filter((x) => x.iden === value.iden).length)`. -/
def idenExists (pb : JSVal) (coll : String) (value : JSVal) : Except JSError Bool := do
  let all ← getPath pb ["api", coll, "all"]
  match all with
  | .arr _ items =>
    let kept ← filterIden value items
    pure (decide (kept.length ≠ 0))
  | _ => .error typeError

/-- What a `set` handler did: the trace of calls, the raised error if it did not return, and
the real mapping afterwards. -/
structure SetRun where
  calls : List Call
  raised : Option JSError
  target : Props

/-- The decision of the push interceptor once the push is known not to exist: the value of
`isTarget && isIncoming`, as a boolean. -/
def pushAccepted (h : Host) (pb value : JSVal) : Except JSError Bool := do
  let isTarget ←
    if (← hasOwnProperty value "target_device_iden") then do
      let t ← getProp value "target_device_iden"
      appIsTargeted h pb t
    else pure (.bool true)
  let isIncoming ←
    if (← hasOwnProperty value "direction") then do
      let d ← getProp value "direction"
      pure (!strictEq d (.str "outgoing"))
    else pure true
  pure (toBoolean isTarget && isIncoming)

/-- The `set` handler installed by `registerPushProxy`. -/
def pushSet (h : Host) (pb : JSVal) (pushesObjs : Props) (property : String) (value : JSVal) :
    SetRun :=
  match idenExists pb "pushes" value with
  | .error e => ⟨[], some e, pushesObjs⟩
  | .ok true => ⟨[], none, setProp pushesObjs property value⟩
  | .ok false =>
    match pushAccepted h pb value with
    | .error e => ⟨[], some e, pushesObjs⟩
    | .ok true => ⟨[.enqueuePush [value]], none, setProp pushesObjs property value⟩
    | .ok false => ⟨[], none, setProp pushesObjs property value⟩

/-- The decision of the text interceptor once the text is known not to exist: the value of
`isTarget`, as a boolean. -/
def textAccepted (h : Host) (pb value : JSVal) : Except JSError Bool := do
  let data ← getProp value "data"
  let declares ← if toBoolean data then hasOwnProperty data "target_device_iden" else pure false
  let isTarget ←
    if declares then do
      let data2 ← getProp value "data"
      let t ← getProp data2 "target_device_iden"
      appIsTargeted h pb t
    else pure (.bool true)
  pure (toBoolean isTarget)

/-- The arguments of the `logger.debug` call of the text interceptor. -/
def textSetLog (property : String) (value : JSVal) : Call :=
  .loggerDebug [.str "pb.api.texts.objs", .str "set()", .str "property:", .str property,
    .str "value:", value]

/-- The `set` handler installed by `registerTextsProxy`. -/
def textSet (h : Host) (pb : JSVal) (textsObjs : Props) (property : String) (value : JSVal) :
    SetRun :=
  match idenExists pb "texts" value with
  | .error e => ⟨[textSetLog property value], some e, textsObjs⟩
  | .ok true => ⟨[textSetLog property value], none, setProp textsObjs property value⟩
  | .ok false =>
    match textAccepted h pb value with
    | .error e => ⟨[textSetLog property value], some e, textsObjs⟩
    | .ok true =>
      ⟨[textSetLog property value, .enqueuePush [value]], none, setProp textsObjs property value⟩
    | .ok false => ⟨[textSetLog property value], none, setProp textsObjs property value⟩

/-! ## The websocket message handler -/

/-- What the message handler did: the trace of calls, and the raised error if it did not
return. -/
structure Run where
  calls : List Call
  raised : Option JSError

/-- The calls of `pbPush.enqueuePush` and `pbClipboard.receiveClip` in a trace. -/
def dispatched (calls : List Call) : List Call :=
  calls.filter Call.isDispatch

/-- The calls of `pbPush.enqueuePush` in a trace. -/
def enqueued (calls : List Call) : List Call :=
  calls.filter Call.isEnqueue

/-- The first `logger.debug` call of the message handler. -/
def messageLog : Call :=
  .loggerDebug [.str "pb.ws.socket#message"]

/-- The `logger.warn` call of the first `catch` block. -/
def parseWarn (err : JSError) : Call :=
  .loggerWarn [.str "pb.ws.socket#message", .str err.message]

/-- The `logger.warn` call of the second `catch` block. -/
def decryptWarn (error : JSError) : Call :=
  .loggerWarn [.str "pb.ws.socket#message", .str "error.message:", .str error.message]

/-- The message handler from the guard `if (!(message.push && message.push.type))` on;
`push` is the value of `message.push` and `calls` the trace so far. -/
def dispatchPush (calls : List Call) (push : JSVal) : Run :=
  if toBoolean push then
    match getProp push "type" with
    | .error e => ⟨calls, some e⟩
    | .ok type =>
      if toBoolean type then
        let calls2 := calls ++
          [.loggerDebug [.str "pb.ws.socket#message", .str "message.push.type:", type]]
        if strictEq type (.str "mirror") || strictEq type (.str "sms_changed") then
          ⟨calls2 ++ [.enqueuePush [push, .bool true]], none⟩
        else if strictEq type (.str "clip") then
          ⟨calls2 ++ [.receiveClip [push]], none⟩
        else
          ⟨calls2, none⟩
      else ⟨calls, none⟩
  else ⟨calls, none⟩

/-- The body of the second `try` block: `JSON.parse(pb.e2e.decrypt(message.push.ciphertext))`. -/
def decryptPush (h : Host) (pb push : JSVal) : Except JSError JSVal := do
  let _e2e ← getProp pb "e2e"
  let ciphertext ← getProp push "ciphertext"
  let text ← h.decrypt ciphertext
  h.jsonParse text

/-- The listener of `message` events installed by `addWebsocketEventHandlers`; `evData` is
`ev.data`. -/
def onMessage (h : Host) (pb evData : JSVal) : Run :=
  match h.jsonParse evData with
  | .error err => ⟨[messageLog, parseWarn err], none⟩
  | .ok message =>
    match getProp message "type" with
    | .error e => ⟨[messageLog], some e⟩
    | .ok type =>
      if !strictEq type (.str "push") then ⟨[messageLog], none⟩
      else
        match getPath message ["push", "encrypted"] with
        | .error e => ⟨[messageLog], some e⟩
        | .ok encrypted =>
          match getProp message "push" with
          | .error e => ⟨[messageLog], some e⟩
          | .ok push =>
            if toBoolean encrypted then
              match getPath pb ["e2e", "enabled"] with
              | .error e => ⟨[messageLog], some e⟩
              | .ok enabled =>
                if !toBoolean enabled then
                  dispatchPush [messageLog, .showNotification "End-to-End Encryption"] push
                else
                  match decryptPush h pb push with
                  | .error error => ⟨[messageLog, decryptWarn error], none⟩
                  | .ok decrypted => dispatchPush [messageLog] decrypted
            else dispatchPush [messageLog] push

/-! ## Sample environment -/

/-- A sample of `JSON.parse`: it agrees with `JSON.parse` on the frames listed and rejects
every other input. -/
def sampleParse : JSVal → Except JSError JSVal
  | .str s =>
    if s = "null" then .ok .null
    else if s = "\x7b\"type\":\"push\"\x7d" then .ok (.obj 1 [("type", .str "push")])
    else if s = "\x7b\"type\":\"ping\"\x7d" then .ok (.obj 1 [("type", .str "ping")])
    else if s = "\x7b\"type\":\"push\",\"push\":\x7b\"type\":\"mirror\"\x7d\x7d" then
      .ok (.obj 1 [("type", .str "push"), ("push", .obj 2 [("type", .str "mirror")])])
    else if s = "\x7b\"type\":\"push\",\"push\":\x7b\"encrypted\":true,\"ciphertext\":\"c1\"\x7d\x7d" then
      .ok (.obj 1 [("type", .str "push"),
        ("push", .obj 2 [("encrypted", .bool true), ("ciphertext", .str "c1")])])
    else if s = "\x7b\"type\":\"push\",\"push\":\x7b\"encrypted\":true,\"type\":\"mirror\",\"ciphertext\":\"c1\"\x7d\x7d" then
      .ok (.obj 1 [("type", .str "push"),
        ("push", .obj 2 [("encrypted", .bool true), ("type", .str "mirror"),
          ("ciphertext", .str "c1")])])
    else if s = "\x7b\"type\":\"clip\",\"body\":\"b\"\x7d" then
      .ok (.obj 3 [("type", .str "clip"), ("body", .str "b")])
    else .error ⟨"SyntaxError", "Unexpected token"⟩
  | _ => .error ⟨"SyntaxError", "Unexpected token"⟩

/-- A sample of `pb.e2e.decrypt`: the ciphertext `c1` decrypts to the JSON text of a `clip`
payload, every other ciphertext fails. -/
def sampleDecrypt : JSVal → Except JSError JSVal
  | .str s =>
    if s = "c1" then .ok (.str "\x7b\"type\":\"clip\",\"body\":\"b\"\x7d")
    else .error ⟨"Error", "decryption failed"⟩
  | _ => .error ⟨"Error", "decryption failed"⟩

/-- A sample of the key conversion, exact on strings, booleans, integral numbers, `undefined`,
`null`, `NaN` and plain objects; the samples use no other value as a key. -/
def sampleKey : JSVal → String
  | .str s => s
  | .undefined => "undefined"
  | .null => "null"
  | .bool true => "true"
  | .bool false => "false"
  | .nan => "NaN"
  | .num n => toString n.num
  | .arr _ _ => ""
  | .obj _ _ => "[object Object]"

/-- The sample collaborators. -/
def sampleHost : Host := ⟨sampleParse, sampleKey, sampleDecrypt⟩

/-- A sample `window.pb`: the lists `pb.api.pushes.all` and `pb.api.texts.all`, the
mapping `pb.api.devices.objs` and the flag `pb.e2e.enabled`. -/
def samplePb (pushesAll textsAll : List JSVal) (devices : Props) (e2eEnabled : Bool) : JSVal :=
  .obj 10 [
    ("api", .obj 11 [
      ("pushes", .obj 12 [("all", .arr 13 pushesAll)]),
      ("texts", .obj 14 [("all", .arr 15 textsAll)]),
      ("devices", .obj 16 [("objs", .obj 17 devices)])]),
    ("e2e", .obj 18 [("enabled", .bool e2eEnabled)])]

/-! ## Predicates used in the statements -/

/-- Whether a value is `undefined` or `null`. -/
def isNullish : JSVal → Bool
  | .undefined => true
  | .null => true
  | _ => false

/-- The device stored in `pb.api.devices.objs` under the key of `targetIden` has model
`pb-for-desktop`. -/
def TargetsApp (h : Host) (pb targetIden : JSVal) : Prop :=
  ∃ objs device, getPath pb ["api", "devices", "objs"] = .ok objs ∧
    getProp objs (h.toPropertyKey targetIden) = .ok device ∧
    getProp device "model" = .ok (.str "pb-for-desktop")

/-! ## The settings registry (`app/scripts/main/managers/configuration-manager.js`)

The persistence collaborator `electronSettings` keeps the settings object in a file of JSON
text: what is read is the JSON image of what was written, objects are stored by value and the
address of a stored object carries no information.  Its `get`, `set` and `delete` take a key
path, a string of keys separated by dots; a key path without a dot is one top-level key, and
the keypaths of the registry are of that kind. -/

/-- The entries of `configurationItems`, in the order of the source. -/
inductive Item where
  | appChangelog
  | appLastVersion
  | appLaunchOnStartup
  | appLogFile
  | appShowBadgeCount
  | appTrayOnly
  | windowBounds
  | windowTopmost
  | windowVisible
  | pushbulletHideNotificationBody
  | pushbulletLastNotificationTimestamp
  | pushbulletRepeatRecentNotifications
  | pushbulletSoundEnabled
  | pushbulletSoundFile
  | pushbulletSoundVolume
  | pushbulletSmsEnabled
  deriving DecidableEq

/-- The field `keypath` of an entry. -/
def Item.keypath : Item → String
  | .appChangelog => "appChangelog"
  | .appLastVersion => "appLastVersion"
  | .appLaunchOnStartup => "appLaunchOnStartup"
  | .appLogFile => "appLogFile"
  | .appShowBadgeCount => "appShowBadgeCount"
  | .appTrayOnly => "appTrayOnly"
  | .windowBounds => "windowBounds"
  | .windowTopmost => "windowTopmost"
  | .windowVisible => "windowVisible"
  | .pushbulletHideNotificationBody => "pushbulletHideNotificationBody"
  | .pushbulletLastNotificationTimestamp => "pushbulletLastNotificationTimestamp"
  | .pushbulletRepeatRecentNotifications => "pushbulletRepeatRecentNotifications"
  | .pushbulletSoundEnabled => "pushbulletSoundEnabled"
  | .pushbulletSoundFile => "pushbulletSoundFile"
  | .pushbulletSoundVolume => "pushbulletSoundVolume"
  | .pushbulletSmsEnabled => "pushbulletSmsEnabled"

/-- The object `configurationItems`: its property names and the entry under each. -/
def configurationItems : List (String × Item) :=
  [("appChangelog", .appChangelog),
   ("appLastVersion", .appLastVersion),
   ("appLaunchOnStartup", .appLaunchOnStartup),
   ("appLogFile", .appLogFile),
   ("appShowBadgeCount", .appShowBadgeCount),
   ("appTrayOnly", .appTrayOnly),
   ("windowBounds", .windowBounds),
   ("windowTopmost", .windowTopmost),
   ("windowVisible", .windowVisible),
   ("pushbulletHideNotificationBody", .pushbulletHideNotificationBody),
   ("pushbulletLastNotificationTimestamp", .pushbulletLastNotificationTimestamp),
   ("pushbulletRepeatRecentNotifications", .pushbulletRepeatRecentNotifications),
   ("pushbulletSoundEnabled", .pushbulletSoundEnabled),
   ("pushbulletSoundFile", .pushbulletSoundFile),
   ("pushbulletSoundVolume", .pushbulletSoundVolume),
   ("pushbulletSmsEnabled", .pushbulletSmsEnabled)]

/-- The values computed once when the module is loaded. -/
structure Boot where
  /-- Holds `global.manifest.version`. -/
  appCurrentVersion : String
  /-- Holds `path.join(appLogDirectory, appName + '.log')`. -/
  appLogFile : String
  /-- Holds `path.join(appSoundDirectory, 'default.wav')`. -/
  soundFile : String
  /-- Holds `Math.floor(Date.now() / 1000) - 86400`. -/
  timestamp : Int

/-- The field `default` of an entry. -/
def Item.default (b : Boot) : Item → JSVal
  | .appChangelog => .str ""
  | .appLastVersion => .str b.appCurrentVersion
  | .appLaunchOnStartup => .bool true
  | .appLogFile => .str b.appLogFile
  | .appShowBadgeCount => .bool false
  | .appTrayOnly => .bool false
  | .windowBounds =>
    .obj 0 [("x", .num 256), ("y", .num 256), ("width", .num 320), ("height", .num 640)]
  | .windowTopmost => .bool false
  | .windowVisible => .bool true
  | .pushbulletHideNotificationBody => .bool false
  | .pushbulletLastNotificationTimestamp => .num b.timestamp
  | .pushbulletRepeatRecentNotifications => .bool true
  | .pushbulletSoundEnabled => .bool true
  | .pushbulletSoundFile => .str b.soundFile
  | .pushbulletSoundVolume => .num 0.5
  | .pushbulletSmsEnabled => .bool true

/-- The function `getItem`, the export of the module: the entry under an own property name
of `configurationItems`, and `none` for the `undefined` of the implicit return. -/
def getItem (playlistItemId : String) : Except JSError (Option Item) :=
  if configurationItems.any (fun p => p.1 == playlistItemId) then
    .ok (configurationItems.lookup playlistItemId)
  else
    .ok none

/-- The keys of an object, as `Object.keys` lists them. -/
def objectKeys {α : Type} (o : List (String × α)) : List String :=
  o.map Prod.fst

mutual
/-- The value read back from the JSON text of a value; `none` when `JSON.stringify` leaves the
value out (`undefined`). `NaN` is written as `null`; in an array a value that is left out is
written as `null`, in an object its property is left out. -/
def toJson : JSVal → Option JSVal
  | .undefined => none
  | .null => some .null
  | .bool b => some (.bool b)
  | .num n => some (.num n)
  | .nan => some .null
  | .str s => some (.str s)
  | .arr a items => some (.arr a (toJsonItems items))
  | .obj a props => some (.obj a (toJsonProps props))
/-- The JSON image of the items of an array. -/
def toJsonItems : List JSVal → List JSVal
  | [] => []
  | x :: xs =>
    (match toJson x with
     | some j => j
     | none => .null) :: toJsonItems xs
/-- The JSON image of the properties of an object. -/
def toJsonProps : Props → Props
  | [] => []
  | p :: ps =>
    match toJsonEntry p with
    | some q => q :: toJsonProps ps
    | none => toJsonProps ps
/-- The JSON image of one property. -/
def toJsonEntry : String × JSVal → Option (String × JSVal)
  | (k, v) =>
    match toJson v with
    | some j => some (k, j)
    | none => none
end

/-- Models `electronSettings.get(keypath)` for a keypath without a dot: the stored value,
`undefined` when there is none. -/
def storeGet (store : Props) (keypath : String) : JSVal :=
  (store.lookup keypath).getD .undefined

/-- Models `electronSettings.set(keypath, value)` for a keypath without a dot: the settings
object with the property set is written as JSON text, so the key holds the JSON image of the
value, and a value that JSON leaves out leaves no key. -/
def storeSet (store : Props) (keypath : String) (value : JSVal) : Props :=
  match toJson value with
  | some stored => setProp store keypath stored
  | none => store.filter (fun p => !(p.1 == keypath))

/-- The keys of a key path: `keyPath.split(/\./)` on the characters still to read, with the
characters of the current key in reverse. -/
def splitKeyPathAux (current : List Char) : List Char → List String
  | [] => [String.mk current.reverse]
  | c :: cs =>
    if c = '.' then String.mk current.reverse :: splitKeyPathAux [] cs
    else splitKeyPathAux (c :: current) cs

/-- The keys of a key path: `keyPath.split(/\./)`. -/
def splitKeyPath (keyPath : String) : List String :=
  splitKeyPathAux [] keyPath.data

/-- The statement `delete obj[key]` and the value of `obj` afterwards, as JSON text holds it:
an own property of an object is removed, an item of an array becomes `null`, and a property
that cannot be deleted (the `length` of an array, a property of a primitive) stays. -/
def deleteOwn (obj : JSVal) (key : String) : Except JSError JSVal :=
  match obj with
  | .undefined => .error typeError
  | .null => .error typeError
  | .obj a props => .ok (.obj a (props.filter (fun p => !(p.1 == key))))
  | .arr a items =>
    match canonicalIndex key with
    | some i => if i < items.length then .ok (.arr a (items.set i .null)) else .ok obj
    | none => .ok obj
  | _ => .ok obj

/-- The value of `obj` once its own property `key` holds `child`; a primitive is left as it
is. -/
def putOwn (obj : JSVal) (key : String) (child : JSVal) : JSVal :=
  match obj with
  | .obj a props => .obj a (setProp props key child)
  | .arr a items =>
    match canonicalIndex key with
    | some i => .arr a (items.set i child)
    | none => obj
  | _ => obj

/-- Models `deleteValueAtKeyPath(obj, keyPath)` of the persistence collaborator on the keys of
the path: while more than one key is left, the walk stops when `obj` does not own the key
(`Object.prototype.hasOwnProperty.call(obj, key)`, which raises on `undefined` and `null`) and
otherwise goes into `obj[key]`; the last key is deleted. -/
def deleteAtKeys : JSVal → List String → Except JSError JSVal
  | obj, [] => .ok obj
  | obj, [key] => deleteOwn obj key
  | obj, key :: rest =>
    if isNullish obj then .error typeError
    else if hasOwn obj key then
      match getProp obj key with
      | .error e => .error e
      | .ok child =>
        match deleteAtKeys child rest with
        | .error e => .error e
        | .ok child2 => .ok (putOwn obj key child2)
    else .ok obj

/-- Models `electronSettings.delete(keyPath)`: the settings object after the deletion along
the key path, or the error raised. -/
def storeDelete (store : Props) (keyPath : String) : Except JSError Props :=
  match deleteAtKeys (.obj 0 store) (splitKeyPath keyPath) with
  | .error e => .error e
  | .ok (.obj _ props) => .ok props
  | .ok _ => .ok store

/-- A call of a collaborator of the registry. -/
inductive SysCall where
  | loggerDebug (args : List JSVal)
  | autoLauncherEnable
  | autoLauncherDisable
  | setBadgeCount (count : ℚ)
  | setAppTrayOnly (trayOnly : JSVal)
  | setAlwaysOnTop (value : JSVal)
  | callback

/-- A pending call of a function made by `_.debounce`: the milliseconds left before it runs
and the write `electronSettings.set(keypath, value)` it performs. -/
structure Debounced where
  remaining : Nat
  keypath : String
  value : JSVal

/-- The state the registry works on: the persisted settings, the pending debounced calls in
the order of their creation, the number of open windows, and the trace of calls. -/
structure Settings where
  store : Props
  pending : List Debounced
  windows : Nat
  calls : List SysCall

/-- The constant `defaultDebounce`. -/
def defaultDebounce : Nat := 1000

/-- Appends a call to the trace. -/
def Settings.call (st : Settings) (c : SysCall) : Settings :=
  { st with calls := st.calls ++ [c] }

/-- The call `electronSettings.set(keypath, value)`. -/
def Settings.write (st : Settings) (keypath : String) (value : JSVal) : Settings :=
  { st with store := storeSet st.store keypath value }

/-- The passing of `ms` milliseconds: the debounced calls that are due run, in the order of
their creation. -/
def Settings.advance (st : Settings) (ms : Nat) : Settings :=
  { st with
    store := (st.pending.filter (fun d => decide (d.remaining ≤ ms))).foldl
      (fun s d => storeSet s d.keypath d.value) st.store
    pending := (st.pending.filter (fun d => decide (ms < d.remaining))).map
      (fun d => { d with remaining := d.remaining - ms }) }

/-! ## The methods of the entries -/

/-- The method `implement` of the four entries whose `set` calls it; `set` calls it on no
other entry, and there the state is left as it is. -/
def Item.implement (i : Item) (value : JSVal) (st : Settings) : Settings :=
  let st1 := st.call (.loggerDebug [.str i.keypath, .str "implement", value])
  match i with
  | .appLaunchOnStartup =>
    if toBoolean value then st1.call .autoLauncherEnable else st1.call .autoLauncherDisable
  | .appShowBadgeCount =>
    if toBoolean value = false then st1.call (.setBadgeCount 0) else st1
  | .appTrayOnly =>
    (st1.call (.loggerDebug [.str "setAppTrayOnly"])).call (.setAppTrayOnly value)
  | .windowTopmost =>
    { st1 with calls := st1.calls ++ List.replicate st1.windows (.setAlwaysOnTop value) }
  | _ => st

/-- The method `get` of an entry: the value it returns and the state afterwards;
`parseFloat` models the built-in of that name. -/
def Item.get (parseFloat : JSVal → JSVal) (i : Item) (st : Settings) : JSVal × Settings :=
  let st1 := st.call (.loggerDebug [.str i.keypath, .str "get"])
  match i with
  | .pushbulletSoundVolume => (parseFloat (storeGet st1.store i.keypath), st1)
  | _ => (storeGet st1.store i.keypath, st1)

/-- The method `set` of an entry; `parseFloat` models the built-in of that name. -/
def Item.set (parseFloat : JSVal → JSVal) (i : Item) (value : JSVal) (st : Settings) :
    Settings :=
  match i with
  | .appLaunchOnStartup | .windowTopmost =>
    let st1 := st.call (.loggerDebug [.str i.keypath, .str "set", value])
    (i.implement value st1).write i.keypath value
  | .appShowBadgeCount | .appTrayOnly =>
    let st1 := st.call (.loggerDebug [.str i.keypath, .str "set"])
    (i.implement value st1).write i.keypath value
  | .windowBounds | .windowVisible =>
    let st1 := st.call (.loggerDebug [.str i.keypath, .str "set", value])
    { st1 with pending := st1.pending ++ [⟨defaultDebounce, i.keypath, value⟩] }
  | .pushbulletSoundVolume =>
    let st1 := st.call (.loggerDebug [.str i.keypath, .str "set"])
    st1.write i.keypath (parseFloat value)
  | _ =>
    let st1 := st.call (.loggerDebug [.str i.keypath, .str "set"])
    st1.write i.keypath value

/-! ## Defaults and the legacy sweep -/

/-- The function `getConfigurationDefaults`, without its logger call: the object built by
`defaults[item] = getItem(item).default` over `Object.keys(configurationItems)`. -/
def getConfigurationDefaults (b : Boot) : Props :=
  (objectKeys configurationItems).foldl
    (fun defaults item =>
      match getItem item with
      | .ok (some entry) => setProp defaults item (entry.default b)
      | _ => defaults)
    []

mutual
/-- Models the merge of one property by lodash `_.defaultsDeep`: a destination value that is
`undefined` or absent takes the source value; a destination object under a source object is
filled recursively; every other destination value is kept. Sources are made of primitives
and plain objects. -/
def mergeValue (objValue : Option JSVal) : JSVal → JSVal
  | .obj sa sprops =>
    match objValue with
    | none => .obj sa (mergeProps [] sprops)
    | some .undefined => .obj sa (mergeProps [] sprops)
    | some (.obj a props) => .obj a (mergeProps props sprops)
    | some v => v
  | d =>
    match objValue with
    | none => d
    | some .undefined => d
    | some v => v
/-- Models lodash `_.defaultsDeep(object, source)` on the own properties of `source`, in
order. -/
def mergeProps (object : Props) : Props → Props
  | [] => object
  | p :: rest => mergeProps (mergeEntry object p) rest
/-- Models the step of `_.defaultsDeep` for one property of the source. -/
def mergeEntry (object : Props) : String × JSVal → Props
  | (k, d) => setProp object k (mergeValue (object.lookup k) d)
end

/-- The function `setConfigurationDefaults`. -/
def setConfigurationDefaults (b : Boot) (st : Settings) : Settings :=
  let st1 := st.call (.loggerDebug [.str "setConfigurationDefaults"])
  let configuration := st1.store
  let st2 := st1.call (.loggerDebug [.str "getConfigurationDefaults"])
  let configurationDefaults := getConfigurationDefaults b
  let st3 := { st2 with store := mergeProps configuration configurationDefaults }
  st3.call .callback

/-- What `removeLegacyItems` did: the state afterwards, and the error raised if it did not
return. -/
structure SweepRun where
  settings : Settings
  raised : Option JSError

/-- The callback of `forEach` in `removeLegacyItems`, for the item at `itemIndex` of a list of
`length` items; once an error is raised, `forEach` calls the callback no more. -/
def removeLegacyStep (length : Nat) (run : SweepRun) (p : Nat × String) : SweepRun :=
  match run.raised with
  | some _ => run
  | none =>
    let deleted : Except JSError Settings :=
      if !(configurationItems.any (fun q => q.1 == p.2)) then
        match storeDelete run.settings.store p.2 with
        | .error e => .error e
        | .ok store =>
          .ok (({ run.settings with store := store }).call
            (.loggerDebug [.str "cleanConfiguration", .str "deleted", .str p.2]))
      else .ok run.settings
    match deleted with
    | .error e => ⟨run.settings, some e⟩
    | .ok st1 =>
      if length = p.1 + 1 then
        ⟨(st1.call (.loggerDebug [.str "cleanConfiguration", .str "complete"])).call .callback,
          none⟩
      else ⟨st1, none⟩

/-- The function `removeLegacyItems`. -/
def removeLegacyItems (st : Settings) : SweepRun :=
  let st1 := st.call (.loggerDebug [.str "cleanConfiguration"])
  let savedSettingsList := objectKeys st1.store
  savedSettingsList.enum.foldl (removeLegacyStep savedSettingsList.length) ⟨st1, none⟩

/-! ## The pollers -/

/-- What a poller did on its ticks. -/
inductive PollEvent where
  | predicate (tick : Nat) (ready : Bool)
  | action (tick : Nat) (completed : Bool)
  | clearInterval (tick : Nat)
  deriving DecidableEq

/-- The state of one poller: whether `clearInterval(interval)` was called, and what happened
so far. -/
structure Poller where
  cleared : Bool
  events : List PollEvent
  deriving DecidableEq

/-- One tick of the timer of a poller, whose callback is
`if (!ready) { return; } action; clearInterval(interval);`. `ready` tells whether the
predicate holds at a tick and `completes` whether the action runs to its end there; an action
that raises leaves the callback before `clearInterval`. A cancelled timer does not call the
callback. -/
def pollerTick (ready completes : Nat → Bool) (p : Poller) (tick : Nat) : Poller :=
  if p.cleared then p
  else if !ready tick then { p with events := p.events ++ [.predicate tick false] }
  else if completes tick then
    { cleared := true
      events := p.events ++ [.predicate tick true, .action tick true, .clearInterval tick] }
  else { p with events := p.events ++ [.predicate tick true, .action tick false] }

/-- The poller after the ticks `1`, ..., `n`. -/
def runPoller (ready completes : Nat → Bool) (n : Nat) : Poller :=
  ((List.range n).map (· + 1)).foldl (pollerTick ready completes) ⟨false, []⟩

/-- The number of times the action was started. -/
def actionRuns (p : Poller) : Nat :=
  (p.events.filter (fun e => match e with | .action _ _ => true | _ => false)).length

/-- The readiness predicate of the poller of `registerTextsProxy`:
`pb && pb.api && pb.api.texts`. -/
def textsReady (pb : JSVal) : Bool :=
  toBoolean pb &&
    (match getProp pb "api" with
     | .ok api =>
       toBoolean api &&
         (match getProp api "texts" with
          | .ok texts => toBoolean texts
          | .error _ => false)
     | .error _ => false)

/-- Whether the action of the poller of `registerTextsProxy` runs to its end:
`new Proxy(pb.api.texts.objs, ...)` raises a `TypeError` unless its target is an object. -/
def textsProxyCompletes (pb : JSVal) : Bool :=
  match getPath pb ["api", "texts", "objs"] with
  | .ok (.obj _ _) => true
  | .ok (.arr _ _) => true
  | _ => false

/-! ## Sample settings -/

/-- Sample values of the module-level constants. -/
def sampleBoot : Boot := ⟨"1.0.0", "/logs/app.log", "/sounds/default.wav", 1700000000⟩

/-- The settings state with the given persisted store, no pending debounced call, one open
window and an empty trace. -/
def sampleSettings (store : Props) : Settings := ⟨store, [], 1, []⟩

/-- The properties of the default of `windowBounds`. -/
def boundsDefault : Props :=
  [("x", .num 256), ("y", .num 256), ("width", .num 320), ("height", .num 640)]

/-- A sample of `parseFloat`: it agrees with `parseFloat` on numbers, on the text `0.5`, and on
`undefined`, `null`, booleans and `NaN`; the samples use no other value. -/
def sampleParseFloat : JSVal → JSVal
  | .num n => .num n
  | .str s => if s = "0.5" then .num 0.5 else .nan
  | _ => .nan

/-! ## Lemmas on the existence check -/

theorem filterIden_ok_of_value (value b : JSVal) (hb : getProp value "iden" = .ok b) :
    ∀ (items kept : List JSVal), filterIden value items = .ok kept →
      (∃ item ∈ items, ∃ a, getProp item "iden" = .ok a ∧ strictEq a b = true) → kept ≠ [] := by
  intro items
  induction items with
  | nil => intro kept _ hex; simp at hex
  | cons x xs ih =>
    intro kept hk hex
    simp only [filterIden, bind, Except.bind, hb] at hk
    cases hx : getProp x "iden" with
    | error e => simp [hx] at hk
    | ok a =>
      simp only [hx] at hk
      cases hr : filterIden value xs with
      | error e => simp [hr] at hk
      | ok rest =>
        simp only [hr, pure, Except.pure] at hk
        by_cases hs : strictEq a b = true
        · simp [hs] at hk
          rw [← hk]; simp
        · simp [hs] at hk
          subst hk
          apply ih rest hr
          obtain ⟨item, hmem, a2, ha2, hs2⟩ := hex
          rcases List.mem_cons.mp hmem with rfl | hmem
          · rw [hx] at ha2; cases ha2; exact absurd hs2 hs
          · exact ⟨item, hmem, a2, ha2, hs2⟩

theorem filterIden_nil_of_no_match (value b : JSVal) (hb : getProp value "iden" = .ok b) :
    ∀ (items : List JSVal),
      (∀ item ∈ items, ∃ a, getProp item "iden" = .ok a ∧ strictEq a b = false) →
      filterIden value items = .ok [] := by
  intro items
  induction items with
  | nil => intro _; rfl
  | cons x xs ih =>
    intro hno
    obtain ⟨a, ha, hs⟩ := hno x (List.mem_cons_self x xs)
    have hrest := ih (fun item hm => hno item (List.mem_cons_of_mem x hm))
    simp [filterIden, bind, Except.bind, hb, ha, hrest, hs, pure, Except.pure]

theorem idenExists_of_match (pb value b : JSVal) (coll : String) (addr : Nat)
    (items : List JSVal) (hall : getPath pb ["api", coll, "all"] = .ok (.arr addr items))
    (hb : getProp value "iden" = .ok b)
    (hex : ∃ item ∈ items, ∃ a, getProp item "iden" = .ok a ∧ strictEq a b = true) :
    idenExists pb coll value ≠ .ok false := by
  simp only [idenExists, bind, Except.bind, hall]
  cases hk : filterIden value items with
  | error e => simp
  | ok kept =>
    have hne := filterIden_ok_of_value value b hb items kept hk hex
    simp [pure, Except.pure, hne]

theorem idenExists_of_no_match (pb value b : JSVal) (coll : String) (addr : Nat)
    (items : List JSVal) (hall : getPath pb ["api", coll, "all"] = .ok (.arr addr items))
    (hb : getProp value "iden" = .ok b)
    (hno : ∀ item ∈ items, ∃ a, getProp item "iden" = .ok a ∧ strictEq a b = false) :
    idenExists pb coll value = .ok false := by
  simp [idenExists, bind, Except.bind, hall, filterIden_nil_of_no_match value b hb items hno,
    pure, Except.pure]

theorem pushSet_enqueued_of_exists (h : Host) (pb : JSVal) (objs : Props) (k : String)
    (v : JSVal) (hx : idenExists pb "pushes" v ≠ .ok false) :
    enqueued (pushSet h pb objs k v).calls = [] := by
  unfold pushSet
  cases hi : idenExists pb "pushes" v with
  | error e => rfl
  | ok ex =>
    cases ex with
    | true => rfl
    | false => exact absurd hi hx

theorem textSet_enqueued_of_exists (h : Host) (pb : JSVal) (objs : Props) (k : String)
    (v : JSVal) (hx : idenExists pb "texts" v ≠ .ok false) :
    enqueued (textSet h pb objs k v).calls = [] := by
  unfold textSet
  cases hi : idenExists pb "texts" v with
  | error e => rfl
  | ok ex =>
    cases ex with
    | true => rfl
    | false => exact absurd hi hx

/-- C1. A written value whose `iden` is strictly equal to the `iden` of some item of the
authoritative list (`pb.api.pushes.all` for the push interceptor, `pb.api.texts.all` for the
text interceptor) is never handed to `pbPush.enqueuePush`, whatever its other fields are. -/
theorem duplicate_not_enqueued (h : Host) (pb : JSVal) (objs : Props) (property : String)
    (value b : JSVal) (addr : Nat) (items : List JSVal)
    (hb : getProp value "iden" = .ok b)
    (hex : ∃ item ∈ items, ∃ a, getProp item "iden" = .ok a ∧ strictEq a b = true) :
    (getPath pb ["api", "pushes", "all"] = .ok (.arr addr items) →
      enqueued (pushSet h pb objs property value).calls = []) ∧
    (getPath pb ["api", "texts", "all"] = .ok (.arr addr items) →
      enqueued (textSet h pb objs property value).calls = []) :=
  ⟨fun hall => pushSet_enqueued_of_exists h pb objs property value
      (idenExists_of_match pb value b "pushes" addr items hall hb hex),
   fun hall => textSet_enqueued_of_exists h pb objs property value
      (idenExists_of_match pb value b "texts" addr items hall hb hex)⟩

/-- Witness of C1: the list `[{iden: "1"}]` and the written value
`{iden: "1", direction: "incoming"}`. -/
theorem duplicate_not_enqueued_witness :
    enqueued (pushSet sampleHost
        (samplePb [.obj 1 [("iden", .str "1")]] [.obj 1 [("iden", .str "1")]] [] false) []
        "1" (.obj 2 [("iden", .str "1"), ("direction", .str "incoming")])).calls = [] ∧
    enqueued (textSet sampleHost
        (samplePb [.obj 1 [("iden", .str "1")]] [.obj 1 [("iden", .str "1")]] [] false) []
        "1" (.obj 2 [("iden", .str "1"), ("direction", .str "incoming")])).calls = [] :=
  ⟨(duplicate_not_enqueued sampleHost
      (samplePb [.obj 1 [("iden", .str "1")]] [.obj 1 [("iden", .str "1")]] [] false) [] "1"
      (.obj 2 [("iden", .str "1"), ("direction", .str "incoming")]) (.str "1") 13
      [.obj 1 [("iden", .str "1")]] rfl
      ⟨.obj 1 [("iden", .str "1")], List.mem_singleton.mpr rfl, .str "1", rfl, rfl⟩).1 rfl,
   (duplicate_not_enqueued sampleHost
      (samplePb [.obj 1 [("iden", .str "1")]] [.obj 1 [("iden", .str "1")]] [] false) [] "1"
      (.obj 2 [("iden", .str "1"), ("direction", .str "incoming")]) (.str "1") 15
      [.obj 1 [("iden", .str "1")]] rfl
      ⟨.obj 1 [("iden", .str "1")], List.mem_singleton.mpr rfl, .str "1", rfl, rfl⟩).2 rfl⟩

/-! ## Lemmas on property reads and on appIsTargeted -/

theorem getProp_ok_of_truthy (v : JSVal) (key : String) (hv : toBoolean v = true) :
    ∃ w, getProp v key = .ok w := by
  cases v <;> simp [toBoolean] at hv <;> simp [getProp]

theorem getProp_falsy (v w : JSVal) (key : String) (hv : toBoolean v = false)
    (hw : getProp v key = .ok w) : toBoolean w = false := by
  cases v with
  | undefined => simp [getProp] at hw
  | null => simp [getProp] at hw
  | bool b => simp [getProp] at hw; subst hw; rfl
  | num n => simp [getProp] at hw; subst hw; rfl
  | nan => simp [getProp] at hw; subst hw; rfl
  | str s =>
    simp [toBoolean] at hv
    subst hv
    simp only [getProp, Except.ok.injEq] at hw
    subst hw
    unfold indexedGet
    split
    · rfl
    · split <;> rfl
  | arr a items => simp [toBoolean] at hv
  | obj a props => simp [toBoolean] at hv

theorem getPath_falsy (ks : List String) : ∀ (v w : JSVal), toBoolean v = false →
    getPath v ks = .ok w → toBoolean w = false := by
  induction ks with
  | nil => intro v w hv hw; simp [getPath] at hw; subst hw; exact hv
  | cons k ks ih =>
    intro v w hv hw
    simp only [getPath] at hw
    cases hk : getProp v k with
    | error e => simp [hk] at hw
    | ok u =>
      simp only [hk] at hw
      exact ih u w (getProp_falsy v u k hv hk) hw

theorem strictEq_str_iff (m : JSVal) (s : String) : strictEq m (.str s) = true ↔ m = .str s := by
  cases m <;> simp [strictEq]

theorem strictEq_falsy_marker (v : JSVal) (hv : toBoolean v = false) :
    strictEq v (.str "pb-for-desktop") = false := by
  cases hs : strictEq v (.str "pb-for-desktop") with
  | false => rfl
  | true =>
    rw [(strictEq_str_iff _ _).mp hs] at hv
    exact absurd hv (by decide)

theorem not_targetsApp_of_falsy (h : Host) (pb t objs : JSVal)
    (hobjs : getPath pb ["api", "devices", "objs"] = .ok objs)
    (hf : toBoolean objs = false ∨
      ∃ device, getProp objs (h.toPropertyKey t) = .ok device ∧ toBoolean device = false) :
    ¬ TargetsApp h pb t := by
  rintro ⟨objs2, device2, hp, hd, hm⟩
  rw [hobjs] at hp
  cases hp
  have hdev : toBoolean device2 = false := by
    rcases hf with hf | ⟨device, hd3, hf⟩
    · exact getProp_falsy _ _ _ hf hd
    · rw [hd] at hd3; cases hd3; exact hf
  have := getProp_falsy _ _ _ hdev hm
  exact absurd this (by decide)

theorem appIsTargeted_spec (h : Host) (pb t api : JSVal) (hapi : getProp pb "api" = .ok api) :
    (appIsTargeted h pb t = .ok (.bool true) ∧ TargetsApp h pb t) ∨
    (appIsTargeted h pb t = .ok .undefined ∧ ¬ TargetsApp h pb t) := by
  by_cases h1 : toBoolean api = true
  · obtain ⟨devices, hdev⟩ := getProp_ok_of_truthy api "devices" h1
    by_cases h2 : toBoolean devices = true
    · obtain ⟨objs, hobjs⟩ := getProp_ok_of_truthy devices "objs" h2
      have hpath : getPath pb ["api", "devices", "objs"] = .ok objs := by
        simp [getPath, hapi, hdev, hobjs]
      by_cases h3 : toBoolean objs = true
      · obtain ⟨device, hdevice⟩ := getProp_ok_of_truthy objs (h.toPropertyKey t) h3
        by_cases h4 : toBoolean device = true
        · obtain ⟨m, hm⟩ := getProp_ok_of_truthy device "model" h4
          by_cases h5 : strictEq m (.str "pb-for-desktop") = true
          · left
            refine ⟨?_, objs, device, hpath, hdevice, ?_⟩
            · simp [appIsTargeted, bind, Except.bind, hapi, h1, hdev, h2, hobjs, h3, hdevice,
                h4, hm, h5, pure, Except.pure]
            · rw [hm, (strictEq_str_iff _ _).mp h5]
          · right
            refine ⟨?_, ?_⟩
            · simp [appIsTargeted, bind, Except.bind, hapi, h1, hdev, h2, hobjs, h3, hdevice,
                h4, hm, h5, pure, Except.pure]
            · rintro ⟨objs2, device2, hp, hd2, hm2⟩
              rw [hpath] at hp; cases hp
              rw [hdevice] at hd2; cases hd2
              rw [hm] at hm2; cases hm2
              exact h5 ((strictEq_str_iff _ _).mpr rfl)
        · right
          have h4f : toBoolean device = false := by simpa using h4
          refine ⟨?_, not_targetsApp_of_falsy h pb t objs hpath (Or.inr ⟨device, hdevice, h4f⟩)⟩
          simp [appIsTargeted, bind, Except.bind, hapi, h1, hdev, h2, hobjs, h3, hdevice,
            h4f, strictEq_falsy_marker device h4f, pure, Except.pure]
      · right
        have h3f : toBoolean objs = false := by simpa using h3
        refine ⟨?_, not_targetsApp_of_falsy h pb t objs hpath (Or.inl h3f)⟩
        simp [appIsTargeted, bind, Except.bind, hapi, h1, hdev, h2, hobjs, h3f,
          strictEq_falsy_marker objs h3f, pure, Except.pure]
    · right
      have h2f : toBoolean devices = false := by simpa using h2
      refine ⟨?_, ?_⟩
      · simp [appIsTargeted, bind, Except.bind, hapi, h1, hdev, h2f,
          strictEq_falsy_marker devices h2f, pure, Except.pure]
      · rintro ⟨objs2, device2, hp, hd2, hm2⟩
        simp only [getPath, hapi, hdev] at hp
        cases ho : getProp devices "objs" with
        | error e => simp [ho] at hp
        | ok o =>
          simp only [ho, Except.ok.injEq] at hp
          subst hp
          have := getProp_falsy _ _ _ (getProp_falsy _ _ _ (getProp_falsy _ _ _ h2f ho) hd2) hm2
          exact absurd this (by decide)
  · right
    have h1f : toBoolean api = false := by simpa using h1
    refine ⟨?_, ?_⟩
    · simp [appIsTargeted, bind, Except.bind, hapi, h1f, strictEq_falsy_marker api h1f, pure,
        Except.pure]
    · rintro ⟨objs2, device2, hp, hd2, hm2⟩
      simp only [getPath, hapi] at hp
      have hp2 : getPath api ["devices", "objs"] = .ok objs2 := by
        simpa [getPath] using hp
      have := getProp_falsy _ _ _ (getProp_falsy _ _ _ (getPath_falsy _ _ _ h1f hp2) hd2) hm2
      exact absurd this (by decide)

/-! ## Lemmas on the decisions of the interceptors -/

theorem getProp_ok_of_not_nullish (v : JSVal) (key : String) (hv : isNullish v = false) :
    ∃ w, getProp v key = .ok w := by
  cases v <;> simp [isNullish] at hv <;> simp [getProp]

theorem hasOwnProperty_of_not_nullish (v : JSVal) (key : String) (hv : isNullish v = false)
    (hs : hasOwn v "hasOwnProperty" = false) :
    hasOwnProperty v key = .ok (hasOwn v key) := by
  cases v <;> simp [isNullish] at hv <;> simp [hasOwnProperty, hs]

theorem hasOwnProperty_shadowed (v : JSVal) (key : String)
    (hs : hasOwn v "hasOwnProperty" = true) : hasOwnProperty v key = .error typeError := by
  cases v <;> simp [hasOwn] at hs <;> simp [hasOwnProperty, hasOwn, hs]

theorem not_nullish_of_hasOwn (v : JSVal) (key : String) (hv : hasOwn v key = true) :
    isNullish v = false := by
  cases v <;> simp [hasOwn] at hv <;> rfl

theorem not_nullish_of_getProp (v w : JSVal) (key : String) (hv : getProp v key = .ok w) :
    isNullish v = false := by
  cases v <;> simp [getProp] at hv <;> rfl

theorem not_nullish_of_truthy (v : JSVal) (hv : toBoolean v = true) : isNullish v = false := by
  cases v <;> simp [toBoolean] at hv <;> rfl

theorem api_of_idenExists (pb v : JSVal) (coll : String) (b : Bool)
    (hi : idenExists pb coll v = .ok b) : ∃ api, getProp pb "api" = .ok api := by
  cases hapi : getProp pb "api" with
  | ok api => exact ⟨api, rfl⟩
  | error e => simp [idenExists, getPath, hapi, bind, Except.bind] at hi

theorem toBoolean_undefined : toBoolean .undefined = false := rfl

theorem canonicalIndex_target : canonicalIndex "target_device_iden" = none := by decide

theorem truthy_of_hasOwn_target (data : JSVal) (hown : hasOwn data "target_device_iden" = true) :
    toBoolean data = true := by
  cases data <;> simp [hasOwn] at hown <;> try rfl
  rw [canonicalIndex_target] at hown
  exact absurd hown (by simp)

theorem pushAccepted_not_targeted (h : Host) (pb value t api : JSVal)
    (hapi : getProp pb "api" = .ok api)
    (hown : hasOwn value "target_device_iden" = true)
    (ht : getProp value "target_device_iden" = .ok t) (hn : ¬ TargetsApp h pb t) :
    pushAccepted h pb value = .ok false ∨ ∃ e, pushAccepted h pb value = .error e := by
  have hnn := not_nullish_of_hasOwn value _ hown
  have happ : appIsTargeted h pb t = .ok .undefined := by
    rcases appIsTargeted_spec h pb t api hapi with ⟨_, hy⟩ | ⟨hu, _⟩
    · exact absurd hy hn
    · exact hu
  obtain ⟨d, hd⟩ := getProp_ok_of_not_nullish value "direction" hnn
  cases hs : hasOwn value "hasOwnProperty" with
  | true =>
    right
    exact ⟨typeError, by simp [pushAccepted, bind, Except.bind,
      hasOwnProperty_shadowed value _ hs]⟩
  | false =>
    left
    simp [pushAccepted, bind, Except.bind, hasOwnProperty_of_not_nullish value _ hnn hs, hown,
      ht, happ, hd, pure, Except.pure, toBoolean_undefined]

theorem textAccepted_not_targeted (h : Host) (pb value data t api : JSVal)
    (hapi : getProp pb "api" = .ok api)
    (hdata : getProp value "data" = .ok data)
    (hown : hasOwn data "target_device_iden" = true)
    (ht : getProp data "target_device_iden" = .ok t) (hn : ¬ TargetsApp h pb t) :
    textAccepted h pb value = .ok false ∨ ∃ e, textAccepted h pb value = .error e := by
  have htr := truthy_of_hasOwn_target data hown
  have hnn := not_nullish_of_truthy data htr
  have happ : appIsTargeted h pb t = .ok .undefined := by
    rcases appIsTargeted_spec h pb t api hapi with ⟨_, hy⟩ | ⟨hu, _⟩
    · exact absurd hy hn
    · exact hu
  cases hs : hasOwn data "hasOwnProperty" with
  | true =>
    right
    exact ⟨typeError, by simp [textAccepted, bind, Except.bind, hdata, htr,
      hasOwnProperty_shadowed data _ hs]⟩
  | false =>
    left
    simp [textAccepted, bind, Except.bind, hasOwnProperty_of_not_nullish data _ hnn hs, hown,
      ht, happ, hdata, htr, pure, Except.pure, toBoolean_undefined]

/-- C2. Target check. `appIsTargeted` yields `true` when the device stored under the target
identity in `pb.api.devices.objs` has model `pb-for-desktop` and `undefined` in every other
case; a written push that declares `target_device_iden`, and a written text whose `data`
declares it, is not enqueued when that device is unknown or has another model. -/
theorem target_check (h : Host) (pb : JSVal) (objs : Props) (property : String)
    (value t : JSVal) :
    (∀ api, getProp pb "api" = .ok api →
      (appIsTargeted h pb t = .ok (.bool true) ∧ TargetsApp h pb t) ∨
      (appIsTargeted h pb t = .ok .undefined ∧ ¬ TargetsApp h pb t)) ∧
    (hasOwn value "target_device_iden" = true →
      getProp value "target_device_iden" = .ok t → ¬ TargetsApp h pb t →
      enqueued (pushSet h pb objs property value).calls = []) ∧
    (∀ data, getProp value "data" = .ok data → hasOwn data "target_device_iden" = true →
      getProp data "target_device_iden" = .ok t → ¬ TargetsApp h pb t →
      enqueued (textSet h pb objs property value).calls = []) := by
  refine ⟨fun api hapi => appIsTargeted_spec h pb t api hapi, ?_, ?_⟩
  · intro hown ht hn
    unfold pushSet
    cases hi : idenExists pb "pushes" value with
    | error e => rfl
    | ok ex =>
      cases ex with
      | true => rfl
      | false =>
        obtain ⟨api, hapi⟩ := api_of_idenExists pb value "pushes" false hi
        rcases pushAccepted_not_targeted h pb value t api hapi hown ht hn with hf | ⟨e, he⟩
        · simp only [hf]; rfl
        · simp only [he]; rfl
  · intro data hdata hown ht hn
    unfold textSet
    cases hi : idenExists pb "texts" value with
    | error e => rfl
    | ok ex =>
      cases ex with
      | true => rfl
      | false =>
        obtain ⟨api, hapi⟩ := api_of_idenExists pb value "texts" false hi
        rcases textAccepted_not_targeted h pb value data t api hapi hdata hown ht hn with
          hf | ⟨e, he⟩
        · simp only [hf]; rfl
        · simp only [he]; rfl

/-- Witness of C2: the device `X` has model `phone`; the push
`{iden: "2", target_device_iden: "X"}` and the text `{iden: "2", data: {target_device_iden: "X"}}`
are not enqueued. -/
theorem target_check_witness :
    ¬ TargetsApp sampleHost
      (samplePb [] [] [("X", .obj 5 [("model", .str "phone")])] false) (.str "X") ∧
    enqueued (pushSet sampleHost
      (samplePb [] [] [("X", .obj 5 [("model", .str "phone")])] false) [] "2"
      (.obj 2 [("iden", .str "2"), ("target_device_iden", .str "X")])).calls = [] ∧
    enqueued (textSet sampleHost
      (samplePb [] [] [("X", .obj 5 [("model", .str "phone")])] false) [] "2"
      (.obj 2 [("iden", .str "2"), ("data", .obj 3 [("target_device_iden", .str "X")])])).calls
      = [] := by
  have hn : ¬ TargetsApp sampleHost
      (samplePb [] [] [("X", .obj 5 [("model", .str "phone")])] false) (.str "X") := by
    rcases (target_check sampleHost
      (samplePb [] [] [("X", .obj 5 [("model", .str "phone")])] false) [] "2"
      .undefined (.str "X")).1 _ rfl with ⟨ht, _⟩ | ⟨_, hn⟩
    · cases ht
    · exact hn
  exact ⟨hn,
    (target_check sampleHost
      (samplePb [] [] [("X", .obj 5 [("model", .str "phone")])] false) [] "2"
      (.obj 2 [("iden", .str "2"), ("target_device_iden", .str "X")]) (.str "X")).2.1
        rfl rfl hn,
    (target_check sampleHost
      (samplePb [] [] [("X", .obj 5 [("model", .str "phone")])] false) [] "2"
      (.obj 2 [("iden", .str "2"), ("data", .obj 3 [("target_device_iden", .str "X")])])
      (.str "X")).2.2 (.obj 3 [("target_device_iden", .str "X")]) rfl rfl rfl hn⟩

/-! ## Acceptance by the push interceptor -/

theorem pushAccepted_outgoing (h : Host) (pb value : JSVal)
    (hown : hasOwn value "direction" = true)
    (hd : getProp value "direction" = .ok (.str "outgoing")) :
    pushAccepted h pb value = .ok false ∨ ∃ e, pushAccepted h pb value = .error e := by
  have hnn := not_nullish_of_hasOwn value _ hown
  have hso : strictEq (.str "outgoing") (.str "outgoing") = true := by decide
  cases hs : hasOwn value "hasOwnProperty" with
  | true =>
    right
    exact ⟨typeError, by simp [pushAccepted, bind, Except.bind,
      hasOwnProperty_shadowed value _ hs]⟩
  | false =>
    cases htg : hasOwn value "target_device_iden" with
    | false =>
      left
      simp [pushAccepted, bind, Except.bind, hasOwnProperty_of_not_nullish value _ hnn hs,
        hown, hd, htg, hso, pure, Except.pure]
    | true =>
      obtain ⟨t, ht⟩ := getProp_ok_of_not_nullish value "target_device_iden" hnn
      cases happ : appIsTargeted h pb t with
      | error e =>
        right
        exact ⟨e, by simp [pushAccepted, bind, Except.bind,
          hasOwnProperty_of_not_nullish value _ hnn hs, htg, ht, happ]⟩
      | ok r =>
        left
        simp [pushAccepted, bind, Except.bind, hasOwnProperty_of_not_nullish value _ hnn hs,
          hown, hd, htg, ht, happ, hso, pure, Except.pure]

theorem pushAccepted_no_target (h : Host) (pb value : JSVal) (hnn : isNullish value = false)
    (hshadow : hasOwn value "hasOwnProperty" = false)
    (htarget : hasOwn value "target_device_iden" = false)
    (hdir : hasOwn value "direction" = false ∨
      ∃ d, getProp value "direction" = .ok d ∧ strictEq d (.str "outgoing") = false) :
    pushAccepted h pb value = .ok true := by
  rcases hdir with hdir | ⟨d, hd, hs⟩
  · simp [pushAccepted, bind, Except.bind, hasOwnProperty_of_not_nullish value _ hnn hshadow,
      htarget, hdir, pure, Except.pure, toBoolean]
  · cases hown : hasOwn value "direction" <;>
      simp [pushAccepted, bind, Except.bind, hasOwnProperty_of_not_nullish value _ hnn hshadow,
        htarget, hown, hd, hs, pure, Except.pure, toBoolean]

theorem pushSet_accepts (h : Host) (pb : JSVal) (objs : Props) (property : String)
    (value b : JSVal) (addr : Nat) (items : List JSVal)
    (hall : getPath pb ["api", "pushes", "all"] = .ok (.arr addr items))
    (hb : getProp value "iden" = .ok b)
    (hno : ∀ item ∈ items, ∃ a, getProp item "iden" = .ok a ∧ strictEq a b = false)
    (hshadow : hasOwn value "hasOwnProperty" = false)
    (htarget : hasOwn value "target_device_iden" = false)
    (hdir : hasOwn value "direction" = false ∨
      ∃ d, getProp value "direction" = .ok d ∧ strictEq d (.str "outgoing") = false) :
    pushSet h pb objs property value =
      ⟨[.enqueuePush [value]], none, setProp objs property value⟩ := by
  have hnn := not_nullish_of_getProp value b _ hb
  simp [pushSet, idenExists_of_no_match pb value b "pushes" addr items hall hb hno,
    pushAccepted_no_target h pb value hnn hshadow htarget hdir]

/-- C3, as stated, fails: with the list `[{iden: "1"}]`, the written push
`{iden: "3", direction: "self"}` has a direction field that is not `incoming`, and it is
enqueued. -/
theorem direction_check_counterexample :
    hasOwn (.obj 2 [("iden", .str "3"), ("direction", .str "self")]) "direction" = true ∧
    getProp (.obj 2 [("iden", .str "3"), ("direction", .str "self")]) "direction" =
      .ok (.str "self") ∧
    strictEq (.str "self") (.str "incoming") = false ∧
    enqueued (pushSet sampleHost (samplePb [.obj 1 [("iden", .str "1")]] [] [] false) [] "3"
        (.obj 2 [("iden", .str "3"), ("direction", .str "self")])).calls =
      [.enqueuePush [.obj 2 [("iden", .str "3"), ("direction", .str "self")]]] :=
  ⟨rfl, rfl, rfl, rfl⟩

/-- C3, amended. A written push whose own `direction` field is `outgoing` is not enqueued.
A push that matches no item of `pb.api.pushes.all`, has no own property `hasOwnProperty`,
declares no target device, and either has no `direction` field or has one that is not
`outgoing`, is treated as incoming: it is enqueued, once. -/
theorem direction_check (h : Host) (pb : JSVal) (objs : Props) (property : String)
    (value : JSVal) :
    (hasOwn value "direction" = true → getProp value "direction" = .ok (.str "outgoing") →
      enqueued (pushSet h pb objs property value).calls = []) ∧
    (∀ b addr items, getPath pb ["api", "pushes", "all"] = .ok (.arr addr items) →
      getProp value "iden" = .ok b →
      (∀ item ∈ items, ∃ a, getProp item "iden" = .ok a ∧ strictEq a b = false) →
      hasOwn value "hasOwnProperty" = false →
      hasOwn value "target_device_iden" = false →
      (hasOwn value "direction" = false ∨
        ∃ d, getProp value "direction" = .ok d ∧ strictEq d (.str "outgoing") = false) →
      (pushSet h pb objs property value).calls = [.enqueuePush [value]] ∧
      (pushSet h pb objs property value).raised = none) := by
  refine ⟨?_, ?_⟩
  · intro hown hd
    unfold pushSet
    cases hi : idenExists pb "pushes" value with
    | error e => rfl
    | ok ex =>
      cases ex with
      | true => rfl
      | false =>
        rcases pushAccepted_outgoing h pb value hown hd with hf | ⟨e, he⟩
        · simp only [hf]; rfl
        · simp only [he]; rfl
  · intro b addr items hall hb hno hshadow htarget hdir
    rw [pushSet_accepts h pb objs property value b addr items hall hb hno hshadow htarget hdir]
    exact ⟨rfl, rfl⟩

/-- Witness of the amended C3: with the list `[{iden: "1"}]`, the push
`{iden: "3", direction: "outgoing"}` is not enqueued and the push
`{iden: "3", direction: "self"}` is. -/
theorem direction_check_witness :
    enqueued (pushSet sampleHost (samplePb [.obj 1 [("iden", .str "1")]] [] [] false) [] "3"
        (.obj 2 [("iden", .str "3"), ("direction", .str "outgoing")])).calls = [] ∧
    (pushSet sampleHost (samplePb [.obj 1 [("iden", .str "1")]] [] [] false) [] "3"
        (.obj 2 [("iden", .str "3"), ("direction", .str "self")])).calls =
      [.enqueuePush [.obj 2 [("iden", .str "3"), ("direction", .str "self")]]] :=
  ⟨(direction_check sampleHost (samplePb [.obj 1 [("iden", .str "1")]] [] [] false) [] "3"
      (.obj 2 [("iden", .str "3"), ("direction", .str "outgoing")])).1 rfl rfl,
   ((direction_check sampleHost (samplePb [.obj 1 [("iden", .str "1")]] [] [] false) [] "3"
      (.obj 2 [("iden", .str "3"), ("direction", .str "self")])).2 (.str "3") 13
      [.obj 1 [("iden", .str "1")]] rfl rfl
      (fun item hm => ⟨.str "1", by rw [List.mem_singleton.mp hm]; rfl, rfl⟩)
      rfl rfl (Or.inr ⟨.str "self", rfl, rfl⟩)).1⟩

/-! ## Acceptance by the text interceptor -/

theorem toBoolean_true : toBoolean (.bool true) = true := rfl

theorem textAccepted_no_target (h : Host) (pb value : JSVal) (hnn : isNullish value = false)
    (hshadow : ∀ data, getProp value "data" = .ok data → hasOwn data "hasOwnProperty" = false)
    (htarget : ∀ data, getProp value "data" = .ok data →
      hasOwn data "target_device_iden" = false) :
    textAccepted h pb value = .ok true := by
  obtain ⟨data, hdata⟩ := getProp_ok_of_not_nullish value "data" hnn
  have hown := htarget data hdata
  have hs := hshadow data hdata
  cases htr : toBoolean data with
  | false =>
    simp [textAccepted, bind, Except.bind, hdata, htr, pure, Except.pure, toBoolean_true]
  | true =>
    have hdn := not_nullish_of_truthy data htr
    simp [textAccepted, bind, Except.bind, hdata, htr,
      hasOwnProperty_of_not_nullish data _ hdn hs, hown, pure, Except.pure, toBoolean_true]

theorem textSet_accepts (h : Host) (pb : JSVal) (objs : Props) (property : String)
    (value b : JSVal) (addr : Nat) (items : List JSVal)
    (hall : getPath pb ["api", "texts", "all"] = .ok (.arr addr items))
    (hb : getProp value "iden" = .ok b)
    (hno : ∀ item ∈ items, ∃ a, getProp item "iden" = .ok a ∧ strictEq a b = false)
    (hshadow : ∀ data, getProp value "data" = .ok data → hasOwn data "hasOwnProperty" = false)
    (htarget : ∀ data, getProp value "data" = .ok data →
      hasOwn data "target_device_iden" = false) :
    textSet h pb objs property value =
      ⟨[textSetLog property value, .enqueuePush [value]], none,
        setProp objs property value⟩ := by
  have hnn := not_nullish_of_getProp value b _ hb
  simp [textSet, idenExists_of_no_match pb value b "texts" addr items hall hb hno,
    textAccepted_no_target h pb value hnn hshadow htarget]

/-- C4, as stated, fails: with the list `[{iden: "1"}]`, the written push
`{iden: "5", hasOwnProperty: 1}` matches no item and has neither a target-device field nor a
direction field, yet it is not enqueued: the call `value.hasOwnProperty(...)` calls the own
property, which is not a function, and the handler raises a `TypeError`. -/
theorem acceptance_counterexample :
    hasOwn (.obj 2 [("iden", .str "5"), ("hasOwnProperty", .num 1)]) "target_device_iden" =
      false ∧
    hasOwn (.obj 2 [("iden", .str "5"), ("hasOwnProperty", .num 1)]) "direction" = false ∧
    (pushSet sampleHost (samplePb [.obj 1 [("iden", .str "1")]] [] [] false) [] "5"
        (.obj 2 [("iden", .str "5"), ("hasOwnProperty", .num 1)])).calls = [] ∧
    (pushSet sampleHost (samplePb [.obj 1 [("iden", .str "1")]] [] [] false) [] "5"
        (.obj 2 [("iden", .str "5"), ("hasOwnProperty", .num 1)])).raised = some typeError :=
  ⟨rfl, rfl, rfl, rfl⟩

/-- C4, amended. Acceptance. A written item whose `iden` matches the `iden` of no item of the
authoritative list, that has neither a target-device field nor a direction field, and that has
no own property `hasOwnProperty`, is handed to `pbPush.enqueuePush` exactly once, as the only
argument, and the handler returns; for a text the target-device field is
`data.target_device_iden`, the property `hasOwnProperty` is looked for on `data`, and the
direction is not consulted. -/
theorem acceptance (h : Host) (pb : JSVal) (objs : Props) (property : String)
    (value b : JSVal) (addr : Nat) (items : List JSVal)
    (hb : getProp value "iden" = .ok b)
    (hno : ∀ item ∈ items, ∃ a, getProp item "iden" = .ok a ∧ strictEq a b = false) :
    (getPath pb ["api", "pushes", "all"] = .ok (.arr addr items) →
      hasOwn value "hasOwnProperty" = false →
      hasOwn value "target_device_iden" = false → hasOwn value "direction" = false →
      enqueued (pushSet h pb objs property value).calls = [.enqueuePush [value]] ∧
      (pushSet h pb objs property value).raised = none) ∧
    (getPath pb ["api", "texts", "all"] = .ok (.arr addr items) →
      (∀ data, getProp value "data" = .ok data → hasOwn data "hasOwnProperty" = false) →
      (∀ data, getProp value "data" = .ok data → hasOwn data "target_device_iden" = false) →
      enqueued (textSet h pb objs property value).calls = [.enqueuePush [value]] ∧
      (textSet h pb objs property value).raised = none) := by
  refine ⟨?_, ?_⟩
  · intro hall hshadow htarget hdir
    rw [pushSet_accepts h pb objs property value b addr items hall hb hno hshadow htarget
      (Or.inl hdir)]
    exact ⟨rfl, rfl⟩
  · intro hall hshadow htarget
    rw [textSet_accepts h pb objs property value b addr items hall hb hno hshadow htarget]
    exact ⟨rfl, rfl⟩

/-- Witness of the amended C4: the list `[{iden: "1"}]` and the written item `{iden: "4"}`;
also the text `{iden: "4", direction: "outgoing"}`, whose direction is not consulted. -/
theorem acceptance_witness :
    enqueued (pushSet sampleHost
        (samplePb [.obj 1 [("iden", .str "1")]] [.obj 1 [("iden", .str "1")]] [] false) []
        "4" (.obj 2 [("iden", .str "4")])).calls = [.enqueuePush [.obj 2 [("iden", .str "4")]]] ∧
    enqueued (textSet sampleHost
        (samplePb [.obj 1 [("iden", .str "1")]] [.obj 1 [("iden", .str "1")]] [] false) []
        "4" (.obj 2 [("iden", .str "4"), ("direction", .str "outgoing")])).calls =
      [.enqueuePush [.obj 2 [("iden", .str "4"), ("direction", .str "outgoing")]]] :=
  ⟨((acceptance sampleHost
      (samplePb [.obj 1 [("iden", .str "1")]] [.obj 1 [("iden", .str "1")]] [] false) [] "4"
      (.obj 2 [("iden", .str "4")]) (.str "4") 13 [.obj 1 [("iden", .str "1")]] rfl
      (fun item hm => ⟨.str "1", by rw [List.mem_singleton.mp hm]; rfl, rfl⟩)).1
        rfl rfl rfl rfl).1,
   ((acceptance sampleHost
      (samplePb [.obj 1 [("iden", .str "1")]] [.obj 1 [("iden", .str "1")]] [] false) [] "4"
      (.obj 2 [("iden", .str "4"), ("direction", .str "outgoing")]) (.str "4") 15
      [.obj 1 [("iden", .str "1")]] rfl
      (fun item hm => ⟨.str "1", by rw [List.mem_singleton.mp hm]; rfl, rfl⟩)).2
        rfl (fun data hd => by cases hd; rfl) (fun data hd => by cases hd; rfl)).1⟩

/-! ## The write of the interceptors -/

theorem lookup_setProp_self (objs : Props) (key : String) (value : JSVal) :
    (setProp objs key value).lookup key = some value := by
  induction objs with
  | nil => simp [setProp, List.lookup]
  | cons p rest ih =>
    obtain ⟨k, w⟩ := p
    by_cases hk : k = key
    · subst hk; simp [setProp, List.lookup]
    · have hb : (key == k) = false := beq_eq_false_iff_ne.mpr (fun e => hk e.symm)
      simp [setProp, List.lookup, hk, hb, ih]

theorem lookup_setProp_other (objs : Props) (key other : String) (value : JSVal)
    (ho : other ≠ key) : (setProp objs key value).lookup other = objs.lookup other := by
  have hb : (other == key) = false := beq_eq_false_iff_ne.mpr ho
  induction objs with
  | nil => simp [setProp, List.lookup, hb]
  | cons p rest ih =>
    obtain ⟨k, w⟩ := p
    by_cases hk : k = key
    · subst hk; simp [setProp, List.lookup, hb]
    · cases hok : other == k <;> simp [setProp, List.lookup, hk, hok, ih]

theorem filterIden_total (value b : JSVal) (hb : getProp value "iden" = .ok b) :
    ∀ items : List JSVal, (∀ item ∈ items, isNullish item = false) →
      ∃ kept, filterIden value items = .ok kept := by
  intro items
  induction items with
  | nil => intro _; exact ⟨[], rfl⟩
  | cons x xs ih =>
    intro hnn
    obtain ⟨a, ha⟩ := getProp_ok_of_not_nullish x "iden" (hnn x (List.mem_cons_self x xs))
    obtain ⟨rest, hrest⟩ := ih (fun item hm => hnn item (List.mem_cons_of_mem x hm))
    by_cases hs : strictEq a b = true
    · exact ⟨x :: rest, by simp [filterIden, bind, Except.bind, ha, hb, hrest, hs, pure,
        Except.pure]⟩
    · exact ⟨rest, by simp [filterIden, bind, Except.bind, ha, hb, hrest, hs, pure,
        Except.pure]⟩

theorem idenExists_total (pb value : JSVal) (coll : String) (addr : Nat) (items : List JSVal)
    (hall : getPath pb ["api", coll, "all"] = .ok (.arr addr items))
    (hitems : ∀ item ∈ items, isNullish item = false) (hnn : isNullish value = false) :
    ∃ ex, idenExists pb coll value = .ok ex := by
  obtain ⟨b, hb⟩ := getProp_ok_of_not_nullish value "iden" hnn
  obtain ⟨kept, hk⟩ := filterIden_total value b hb items hitems
  exact ⟨decide (kept.length ≠ 0),
    by simp [idenExists, bind, Except.bind, hall, hk, pure, Except.pure]⟩

theorem appIsTargeted_total (h : Host) (pb t api : JSVal) (hapi : getProp pb "api" = .ok api) :
    ∃ r, appIsTargeted h pb t = .ok r := by
  rcases appIsTargeted_spec h pb t api hapi with ⟨hr, _⟩ | ⟨hr, _⟩
  · exact ⟨_, hr⟩
  · exact ⟨_, hr⟩

theorem pushAccepted_total (h : Host) (pb value api : JSVal)
    (hapi : getProp pb "api" = .ok api) (hnn : isNullish value = false)
    (hshadow : hasOwn value "hasOwnProperty" = false) :
    ∃ r, pushAccepted h pb value = .ok r := by
  obtain ⟨t, ht⟩ := getProp_ok_of_not_nullish value "target_device_iden" hnn
  obtain ⟨d, hd⟩ := getProp_ok_of_not_nullish value "direction" hnn
  obtain ⟨r, hr⟩ := appIsTargeted_total h pb t api hapi
  cases h1 : hasOwn value "target_device_iden" <;> cases h2 : hasOwn value "direction" <;>
    simp [pushAccepted, bind, Except.bind, hasOwnProperty_of_not_nullish value _ hnn hshadow,
      h1, h2, ht, hd, hr, pure, Except.pure]

theorem textAccepted_total (h : Host) (pb value api : JSVal)
    (hapi : getProp pb "api" = .ok api) (hnn : isNullish value = false)
    (hshadow : ∀ data, getProp value "data" = .ok data → hasOwn data "hasOwnProperty" = false) :
    ∃ r, textAccepted h pb value = .ok r := by
  obtain ⟨data, hdata⟩ := getProp_ok_of_not_nullish value "data" hnn
  have hs := hshadow data hdata
  cases htr : toBoolean data with
  | false =>
    exact ⟨_, by simp [textAccepted, bind, Except.bind, hdata, htr, pure, Except.pure]; rfl⟩
  | true =>
    have hdn := not_nullish_of_truthy data htr
    obtain ⟨t, ht⟩ := getProp_ok_of_not_nullish data "target_device_iden" hdn
    obtain ⟨r, hr⟩ := appIsTargeted_total h pb t api hapi
    cases h1 : hasOwn data "target_device_iden" <;>
      simp [textAccepted, bind, Except.bind, hdata, htr,
        hasOwnProperty_of_not_nullish data _ hdn hs, h1, ht, hr, pure, Except.pure]

theorem pushSet_target (h : Host) (pb : JSVal) (objs : Props) (property : String)
    (value : JSVal) :
    ((pushSet h pb objs property value).raised = none →
      (pushSet h pb objs property value).target = setProp objs property value) ∧
    ((pushSet h pb objs property value).raised ≠ none →
      (pushSet h pb objs property value).target = objs) := by
  unfold pushSet
  cases idenExists pb "pushes" value with
  | error e => simp
  | ok ex =>
    cases ex with
    | true => simp
    | false =>
      cases pushAccepted h pb value with
      | error e => simp
      | ok r => cases r <;> simp

theorem textSet_target (h : Host) (pb : JSVal) (objs : Props) (property : String)
    (value : JSVal) :
    ((textSet h pb objs property value).raised = none →
      (textSet h pb objs property value).target = setProp objs property value) ∧
    ((textSet h pb objs property value).raised ≠ none →
      (textSet h pb objs property value).target = objs) := by
  unfold textSet
  cases idenExists pb "texts" value with
  | error e => simp
  | ok ex =>
    cases ex with
    | true => simp
    | false =>
      cases textAccepted h pb value with
      | error e => simp
      | ok r => cases r <;> simp

theorem pushSet_returns (h : Host) (pb : JSVal) (objs : Props) (property : String)
    (value : JSVal) (addr : Nat) (items : List JSVal)
    (hall : getPath pb ["api", "pushes", "all"] = .ok (.arr addr items))
    (hitems : ∀ item ∈ items, isNullish item = false) (hnn : isNullish value = false)
    (hshadow : hasOwn value "hasOwnProperty" = false) :
    (pushSet h pb objs property value).raised = none := by
  obtain ⟨ex, hex⟩ := idenExists_total pb value "pushes" addr items hall hitems hnn
  obtain ⟨api, hapi⟩ := api_of_idenExists pb value "pushes" ex hex
  obtain ⟨r, hr⟩ := pushAccepted_total h pb value api hapi hnn hshadow
  unfold pushSet
  cases ex <;> cases r <;> simp [hex, hr]

theorem textSet_returns (h : Host) (pb : JSVal) (objs : Props) (property : String)
    (value : JSVal) (addr : Nat) (items : List JSVal)
    (hall : getPath pb ["api", "texts", "all"] = .ok (.arr addr items))
    (hitems : ∀ item ∈ items, isNullish item = false) (hnn : isNullish value = false)
    (hshadow : ∀ data, getProp value "data" = .ok data → hasOwn data "hasOwnProperty" = false) :
    (textSet h pb objs property value).raised = none := by
  obtain ⟨ex, hex⟩ := idenExists_total pb value "texts" addr items hall hitems hnn
  obtain ⟨api, hapi⟩ := api_of_idenExists pb value "texts" ex hex
  obtain ⟨r, hr⟩ := textAccepted_total h pb value api hapi hnn hshadow
  unfold textSet
  cases ex <;> cases r <;> simp [hex, hr]

/-- C5. Write-through. Whenever the `set` handler of the push or of the text interceptor
returns, the real mapping is the mapping after the plain write `objs[property] = value`: it
maps `property` to `value` and every other key to the value it had, whatever the handler
decided about the item; a handler that raises has not written. The handler returns whenever
the written value and the items of the authoritative list are not `undefined` or `null` and
the value on which `hasOwnProperty` is called (the push, the `data` of the text) has no own
property of that name. -/
theorem write_through (h : Host) (pb : JSVal) (objs : Props) (property : String)
    (value : JSVal) :
    ((setProp objs property value).lookup property = some value ∧
      ∀ other, other ≠ property →
        (setProp objs property value).lookup other = objs.lookup other) ∧
    (((pushSet h pb objs property value).raised = none →
        (pushSet h pb objs property value).target = setProp objs property value) ∧
      ((pushSet h pb objs property value).raised ≠ none →
        (pushSet h pb objs property value).target = objs)) ∧
    (((textSet h pb objs property value).raised = none →
        (textSet h pb objs property value).target = setProp objs property value) ∧
      ((textSet h pb objs property value).raised ≠ none →
        (textSet h pb objs property value).target = objs)) ∧
    (∀ addr items, getPath pb ["api", "pushes", "all"] = .ok (.arr addr items) →
      (∀ item ∈ items, isNullish item = false) → isNullish value = false →
      hasOwn value "hasOwnProperty" = false →
      (pushSet h pb objs property value).raised = none) ∧
    (∀ addr items, getPath pb ["api", "texts", "all"] = .ok (.arr addr items) →
      (∀ item ∈ items, isNullish item = false) → isNullish value = false →
      (∀ data, getProp value "data" = .ok data → hasOwn data "hasOwnProperty" = false) →
      (textSet h pb objs property value).raised = none) :=
  ⟨⟨lookup_setProp_self objs property value,
      fun other ho => lookup_setProp_other objs property other value ho⟩,
    pushSet_target h pb objs property value,
    textSet_target h pb objs property value,
    fun addr items hall hitems hnn hshadow =>
      pushSet_returns h pb objs property value addr items hall hitems hnn hshadow,
    fun addr items hall hitems hnn hshadow =>
      textSet_returns h pb objs property value addr items hall hitems hnn hshadow⟩

/-- Witness of C5: the mapping `{a: null}`, the list `[{iden: "1"}]` and the write of the
duplicate `{iden: "1"}` under the key `1`; the write of `{iden: "5", hasOwnProperty: 1}` raises
and leaves the mapping as it was. -/
theorem write_through_witness :
    (pushSet sampleHost (samplePb [.obj 1 [("iden", .str "1")]] [] [] false) [("a", .null)]
        "1" (.obj 2 [("iden", .str "1")])).raised = none ∧
    (pushSet sampleHost (samplePb [.obj 1 [("iden", .str "1")]] [] [] false) [("a", .null)]
        "1" (.obj 2 [("iden", .str "1")])).target =
      [("a", .null), ("1", .obj 2 [("iden", .str "1")])] ∧
    (pushSet sampleHost (samplePb [.obj 1 [("iden", .str "1")]] [] [] false) [("a", .null)]
        "5" (.obj 2 [("iden", .str "5"), ("hasOwnProperty", .num 1)])).target =
      [("a", .null)] :=
  ⟨(write_through sampleHost (samplePb [.obj 1 [("iden", .str "1")]] [] [] false)
      [("a", .null)] "1" (.obj 2 [("iden", .str "1")])).2.2.2.1 13
      [.obj 1 [("iden", .str "1")]] rfl
      (fun item hm => by rw [List.mem_singleton.mp hm]; rfl) rfl rfl,
   (write_through sampleHost (samplePb [.obj 1 [("iden", .str "1")]] [] [] false)
      [("a", .null)] "1" (.obj 2 [("iden", .str "1")])).2.1.1 rfl,
   (write_through sampleHost (samplePb [.obj 1 [("iden", .str "1")]] [] [] false)
      [("a", .null)] "5" (.obj 2 [("iden", .str "5"), ("hasOwnProperty", .num 1)])).2.1.2
      (fun hr => by cases hr)⟩

/-! ## Lemmas on the dispatch of the message handler -/

theorem dispatchPush_raised (calls : List Call) (push type : JSVal)
    (hty : getProp push "type" = .ok type) : (dispatchPush calls push).raised = none := by
  unfold dispatchPush
  simp only [hty]
  split
  · split
    · split
      · rfl
      · split <;> rfl
    · rfl
  · rfl

theorem dispatchPush_enqueue (calls : List Call) (push type : JSVal)
    (hty : getProp push "type" = .ok type)
    (hm : type = .str "mirror" ∨ type = .str "sms_changed") :
    dispatched (dispatchPush calls push).calls =
      dispatched calls ++ [.enqueuePush [push, .bool true]] := by
  have htt : toBoolean type = true := by rcases hm with rfl | rfl <;> decide
  have hpt : toBoolean push = true := by
    cases hp : toBoolean push with
    | true => rfl
    | false => rw [getProp_falsy push type "type" hp hty] at htt; exact absurd htt (by decide)
  have hs : (strictEq type (.str "mirror") || strictEq type (.str "sms_changed")) = true := by
    rcases hm with rfl | rfl <;> decide
  simp [dispatchPush, hty, htt, hpt, hs, dispatched, List.filter_append, Call.isDispatch]

theorem dispatchPush_clip (calls : List Call) (push : JSVal)
    (hty : getProp push "type" = .ok (.str "clip")) :
    dispatched (dispatchPush calls push).calls = dispatched calls ++ [.receiveClip [push]] := by
  have htt : toBoolean (.str "clip") = true := by decide
  have hpt : toBoolean push = true := by
    cases hp : toBoolean push with
    | true => rfl
    | false => rw [getProp_falsy push _ "type" hp hty] at htt; exact absurd htt (by decide)
  have hs : (strictEq (.str "clip") (.str "mirror") ||
      strictEq (.str "clip") (.str "sms_changed")) = false := by decide
  have hc : strictEq (.str "clip") (.str "clip") = true := by decide
  simp [dispatchPush, hty, htt, hpt, hs, hc, dispatched, List.filter_append, Call.isDispatch]

theorem dispatchPush_other (calls : List Call) (push type : JSVal)
    (hty : getProp push "type" = .ok type)
    (h1 : type ≠ .str "mirror") (h2 : type ≠ .str "sms_changed") (h3 : type ≠ .str "clip") :
    dispatched (dispatchPush calls push).calls = dispatched calls := by
  have e1 : strictEq type (.str "mirror") = false := by
    cases hs : strictEq type (.str "mirror") with
    | false => rfl
    | true => exact absurd ((strictEq_str_iff _ _).mp hs) h1
  have e2 : strictEq type (.str "sms_changed") = false := by
    cases hs : strictEq type (.str "sms_changed") with
    | false => rfl
    | true => exact absurd ((strictEq_str_iff _ _).mp hs) h2
  have e3 : strictEq type (.str "clip") = false := by
    cases hs : strictEq type (.str "clip") with
    | false => rfl
    | true => exact absurd ((strictEq_str_iff _ _).mp hs) h3
  unfold dispatchPush
  simp only [hty, e1, e2, e3]
  split
  · split
    · simp [dispatched, List.filter_append, Call.isDispatch]
    · rfl
  · rfl

theorem onMessage_unencrypted (h : Host) (pb evData message push encrypted : JSVal)
    (hparse : h.jsonParse evData = .ok message)
    (htype : getProp message "type" = .ok (.str "push"))
    (hpush : getProp message "push" = .ok push)
    (henc : getProp push "encrypted" = .ok encrypted)
    (hfalse : toBoolean encrypted = false) :
    onMessage h pb evData = dispatchPush [messageLog] push := by
  have hs : strictEq (.str "push") (.str "push") = true := by decide
  simp [onMessage, hparse, htype, hs, getPath, hpush, henc, hfalse]

/-- C6. Dispatch by payload type. For a frame that parses to a message of type `push` whose
payload is not encrypted and has a `type` field, the handler returns, and the only calls of
the collaborators are: `pbPush.enqueuePush(payload, true)` once when the type is `mirror` or
`sms_changed`, `pbClipboard.receiveClip(payload)` once when it is `clip`, and none for every
other type. -/
theorem dispatch_by_type (h : Host) (pb evData message push encrypted type : JSVal)
    (hparse : h.jsonParse evData = .ok message)
    (htype : getProp message "type" = .ok (.str "push"))
    (hpush : getProp message "push" = .ok push)
    (henc : getProp push "encrypted" = .ok encrypted)
    (hfalse : toBoolean encrypted = false)
    (hty : getProp push "type" = .ok type) :
    (onMessage h pb evData).raised = none ∧
    (type = .str "mirror" ∨ type = .str "sms_changed" →
      dispatched (onMessage h pb evData).calls = [.enqueuePush [push, .bool true]]) ∧
    (type = .str "clip" →
      dispatched (onMessage h pb evData).calls = [.receiveClip [push]]) ∧
    (type ≠ .str "mirror" → type ≠ .str "sms_changed" → type ≠ .str "clip" →
      dispatched (onMessage h pb evData).calls = []) := by
  rw [onMessage_unencrypted h pb evData message push encrypted hparse htype hpush henc hfalse]
  refine ⟨dispatchPush_raised _ push type hty, ?_, ?_, ?_⟩
  · intro hm
    rw [dispatchPush_enqueue _ push type hty hm]; rfl
  · intro hc
    subst hc
    rw [dispatchPush_clip _ push hty]; rfl
  · intro h1 h2 h3
    rw [dispatchPush_other _ push type hty h1 h2 h3]; rfl

/-- Witness of C6: the frame `{"type":"push","push":{"type":"mirror"}}`. -/
theorem dispatch_by_type_witness :
    dispatched (onMessage sampleHost (samplePb [] [] [] false)
      (.str "\x7b\"type\":\"push\",\"push\":\x7b\"type\":\"mirror\"\x7d\x7d")).calls =
      [.enqueuePush [.obj 2 [("type", .str "mirror")], .bool true]] :=
  (dispatch_by_type sampleHost (samplePb [] [] [] false)
    (.str "\x7b\"type\":\"push\",\"push\":\x7b\"type\":\"mirror\"\x7d\x7d")
    (.obj 1 [("type", .str "push"), ("push", .obj 2 [("type", .str "mirror")])])
    (.obj 2 [("type", .str "mirror")]) .undefined (.str "mirror")
    rfl rfl rfl rfl rfl rfl).2.1 (Or.inl rfl)

/-! ## Frames the message handler drops, and frames on which it raises -/

theorem strictEq_str_false (m : JSVal) (s : String) (hm : m ≠ .str s) :
    strictEq m (.str s) = false := by
  cases hs : strictEq m (.str s) with
  | false => rfl
  | true => exact absurd ((strictEq_str_iff _ _).mp hs) hm

/-- C7: what the code does. A frame that does not parse is dropped, and so is a frame that
parses to a value other than `undefined` and `null` whose `type` is not `push`: the handler
returns and calls no collaborator besides the logger. A frame that parses to `null`, such as
the text `null`, is not dropped: the read `message.type` raises a `TypeError` out of the
handler. -/
theorem non_push_frames (h : Host) (pb evData : JSVal) :
    (∀ err, h.jsonParse evData = .error err →
      (onMessage h pb evData).raised = none ∧ dispatched (onMessage h pb evData).calls = []) ∧
    (∀ message type, h.jsonParse evData = .ok message → getProp message "type" = .ok type →
      type ≠ .str "push" →
      (onMessage h pb evData).raised = none ∧ dispatched (onMessage h pb evData).calls = []) ∧
    (h.jsonParse evData = .ok .null →
      (onMessage h pb evData).raised = some typeError ∧
      (onMessage h pb evData).calls = [messageLog]) := by
  refine ⟨?_, ?_, ?_⟩
  · intro err herr
    simp [onMessage, herr, dispatched, Call.isDispatch, messageLog, parseWarn]
  · intro message type hparse hty hne
    simp [onMessage, hparse, hty, strictEq_str_false type "push" hne, dispatched,
      Call.isDispatch, messageLog]
  · intro hparse
    simp [onMessage, hparse, getProp]

/-- C7 at the failing input: the text frame `null` makes the handler raise a `TypeError`; the
text frame `not json` and the frame `{"type":"ping"}` are dropped. -/
theorem non_push_frames_witness :
    (onMessage sampleHost (samplePb [] [] [] false) (.str "null")).raised = some typeError ∧
    (onMessage sampleHost (samplePb [] [] [] false) (.str "not json")).raised = none ∧
    (onMessage sampleHost (samplePb [] [] [] false)
      (.str "\x7b\"type\":\"ping\"\x7d")).raised = none :=
  ⟨((non_push_frames sampleHost (samplePb [] [] [] false) (.str "null")).2.2 rfl).1,
   ((non_push_frames sampleHost (samplePb [] [] [] false) (.str "not json")).1
      ⟨"SyntaxError", "Unexpected token"⟩ rfl).1,
   ((non_push_frames sampleHost (samplePb [] [] [] false)
      (.str "\x7b\"type\":\"ping\"\x7d")).2.1
      (.obj 1 [("type", .str "ping")]) (.str "ping") rfl rfl (by simp)).1⟩

/-! ## Encrypted frames -/

theorem onMessage_encrypted_disabled (h : Host) (pb evData message push encrypted enabled : JSVal)
    (hparse : h.jsonParse evData = .ok message)
    (htype : getProp message "type" = .ok (.str "push"))
    (hpush : getProp message "push" = .ok push)
    (henc : getProp push "encrypted" = .ok encrypted)
    (htrue : toBoolean encrypted = true)
    (hen : getPath pb ["e2e", "enabled"] = .ok enabled)
    (hoff : toBoolean enabled = false) :
    onMessage h pb evData =
      dispatchPush [messageLog, .showNotification "End-to-End Encryption"] push := by
  have hs : strictEq (.str "push") (.str "push") = true := by decide
  have hpath : getPath message ["push", "encrypted"] = .ok encrypted := by
    simp [getPath, hpush, henc]
  simp [onMessage, hparse, htype, hs, hpath, hpush, htrue, hen, hoff]

/-- C8: what the code does. On a push frame whose envelope has a truthy `encrypted` field,
received while `pb.e2e.enabled` is falsy, the handler creates the prompt notification and
then goes on to the dispatch with the envelope as the payload: an envelope that carries no
truthy `type` is dispatched nowhere, but an envelope whose `type` is `mirror` or
`sms_changed` is handed to `pbPush.enqueuePush`, and one whose `type` is `clip` to
`pbClipboard.receiveClip`. -/
theorem encrypted_while_disabled (h : Host) (pb evData message push encrypted enabled : JSVal)
    (hparse : h.jsonParse evData = .ok message)
    (htype : getProp message "type" = .ok (.str "push"))
    (hpush : getProp message "push" = .ok push)
    (henc : getProp push "encrypted" = .ok encrypted)
    (htrue : toBoolean encrypted = true)
    (hen : getPath pb ["e2e", "enabled"] = .ok enabled)
    (hoff : toBoolean enabled = false) :
    (∀ type, getProp push "type" = .ok type → toBoolean type = false →
      (onMessage h pb evData).calls = [messageLog, .showNotification "End-to-End Encryption"] ∧
      (onMessage h pb evData).raised = none) ∧
    (∀ type, getProp push "type" = .ok type → (type = .str "mirror" ∨ type = .str "sms_changed") →
      dispatched (onMessage h pb evData).calls = [.enqueuePush [push, .bool true]]) ∧
    (getProp push "type" = .ok (.str "clip") →
      dispatched (onMessage h pb evData).calls = [.receiveClip [push]]) := by
  rw [onMessage_encrypted_disabled h pb evData message push encrypted enabled hparse htype hpush
    henc htrue hen hoff]
  refine ⟨?_, ?_, ?_⟩
  · intro type hty hf
    unfold dispatchPush
    simp only [hty, hf]
    split <;> exact ⟨rfl, rfl⟩
  · intro type hty hm
    rw [dispatchPush_enqueue _ push type hty hm]; rfl
  · intro hty
    rw [dispatchPush_clip _ push hty]; rfl

/-- C8 at the failing input: with `pb.e2e.enabled` false, the frame
`{"type":"push","push":{"encrypted":true,"type":"mirror","ciphertext":"c1"}}` makes the
handler create the notification and then call `pbPush.enqueuePush` with the encrypted
envelope; the envelope `{"encrypted":true,"ciphertext":"c1"}` is not dispatched. -/
theorem encrypted_while_disabled_witness :
    dispatched (onMessage sampleHost (samplePb [] [] [] false)
      (.str "\x7b\"type\":\"push\",\"push\":\x7b\"encrypted\":true,\"type\":\"mirror\",\"ciphertext\":\"c1\"\x7d\x7d")).calls =
      [.enqueuePush [.obj 2 [("encrypted", .bool true), ("type", .str "mirror"),
        ("ciphertext", .str "c1")], .bool true]] ∧
    (onMessage sampleHost (samplePb [] [] [] false)
      (.str "\x7b\"type\":\"push\",\"push\":\x7b\"encrypted\":true,\"ciphertext\":\"c1\"\x7d\x7d")).calls =
      [messageLog, .showNotification "End-to-End Encryption"] :=
  ⟨(encrypted_while_disabled sampleHost (samplePb [] [] [] false)
      (.str "\x7b\"type\":\"push\",\"push\":\x7b\"encrypted\":true,\"type\":\"mirror\",\"ciphertext\":\"c1\"\x7d\x7d")
      (.obj 1 [("type", .str "push"),
        ("push", .obj 2 [("encrypted", .bool true), ("type", .str "mirror"),
          ("ciphertext", .str "c1")])])
      (.obj 2 [("encrypted", .bool true), ("type", .str "mirror"), ("ciphertext", .str "c1")])
      (.bool true) (.bool false) rfl rfl rfl rfl rfl rfl rfl).2.1 (.str "mirror") rfl
      (Or.inl rfl),
   ((encrypted_while_disabled sampleHost (samplePb [] [] [] false)
      (.str "\x7b\"type\":\"push\",\"push\":\x7b\"encrypted\":true,\"ciphertext\":\"c1\"\x7d\x7d")
      (.obj 1 [("type", .str "push"),
        ("push", .obj 2 [("encrypted", .bool true), ("ciphertext", .str "c1")])])
      (.obj 2 [("encrypted", .bool true), ("ciphertext", .str "c1")])
      (.bool true) (.bool false) rfl rfl rfl rfl rfl rfl rfl).1 .undefined rfl rfl).1⟩

/-! ## Payloads without a type -/

/-- C9: what the code does. A push frame whose payload is present, not encrypted and without
a truthy `type` is ignored: the handler returns and dispatches nothing. A push frame whose
payload is absent (`message.push` is `undefined` or `null`), such as `{"type":"push"}`, is
not ignored: the read `message.push.encrypted` raises a `TypeError` out of the handler, before
the guard on `message.push` is reached. -/
theorem payload_without_type (h : Host) (pb evData message : JSVal)
    (hparse : h.jsonParse evData = .ok message)
    (htype : getProp message "type" = .ok (.str "push")) :
    (∀ push encrypted type, getProp message "push" = .ok push →
      getProp push "encrypted" = .ok encrypted → toBoolean encrypted = false →
      getProp push "type" = .ok type → toBoolean type = false →
      (onMessage h pb evData).raised = none ∧ dispatched (onMessage h pb evData).calls = []) ∧
    (∀ push, getProp message "push" = .ok push → isNullish push = true →
      (onMessage h pb evData).raised = some typeError ∧
      (onMessage h pb evData).calls = [messageLog]) := by
  have hs : strictEq (.str "push") (.str "push") = true := by decide
  refine ⟨?_, ?_⟩
  · intro push encrypted type hpush henc hfalse hty hf
    rw [onMessage_unencrypted h pb evData message push encrypted hparse htype hpush henc hfalse]
    unfold dispatchPush
    simp only [hty, hf]
    split <;> exact ⟨rfl, rfl⟩
  · intro push hpush hnull
    have hpath : getPath message ["push", "encrypted"] = .error typeError := by
      cases push <;> simp [isNullish] at hnull <;> (simp only [getPath, hpush]; rfl)
    simp [onMessage, hparse, htype, hs, hpath]

/-- C9 at the failing input: the frame `{"type":"push"}` makes the handler raise a
`TypeError`. -/
theorem payload_without_type_witness :
    (onMessage sampleHost (samplePb [] [] [] false)
      (.str "\x7b\"type\":\"push\"\x7d")).raised = some typeError ∧
    (onMessage sampleHost (samplePb [] [] [] false)
      (.str "\x7b\"type\":\"push\"\x7d")).calls = [messageLog] :=
  (payload_without_type sampleHost (samplePb [] [] [] false)
    (.str "\x7b\"type\":\"push\"\x7d") (.obj 1 [("type", .str "push")]) rfl rfl).2
    .undefined rfl rfl

/-! ## Decryption -/

theorem onMessage_encrypted_enabled (h : Host) (pb evData message push encrypted enabled : JSVal)
    (hparse : h.jsonParse evData = .ok message)
    (htype : getProp message "type" = .ok (.str "push"))
    (hpush : getProp message "push" = .ok push)
    (henc : getProp push "encrypted" = .ok encrypted)
    (htrue : toBoolean encrypted = true)
    (hen : getPath pb ["e2e", "enabled"] = .ok enabled)
    (hon : toBoolean enabled = true) :
    onMessage h pb evData =
      match decryptPush h pb push with
      | .error error => ⟨[messageLog, decryptWarn error], none⟩
      | .ok decrypted => dispatchPush [messageLog] decrypted := by
  have hs : strictEq (.str "push") (.str "push") = true := by decide
  have hpath : getPath message ["push", "encrypted"] = .ok encrypted := by
    simp [getPath, hpush, henc]
  simp [onMessage, hparse, htype, hs, hpath, hpush, htrue, hen, hon]

theorem decryptPush_eq (h : Host) (pb push enabled ciphertext : JSVal)
    (hen : getPath pb ["e2e", "enabled"] = .ok enabled)
    (hct : getProp push "ciphertext" = .ok ciphertext) :
    decryptPush h pb push =
      match h.decrypt ciphertext with
      | .error e => .error e
      | .ok text => h.jsonParse text := by
  cases he : getProp pb "e2e" with
  | error e => simp [getPath, he] at hen
  | ok e2e =>
    simp only [decryptPush, bind, Except.bind, he, hct]
    cases h.decrypt ciphertext <;> rfl

/-- C10. Decryption round trip. On a push frame with a truthy `encrypted` field received
while `pb.e2e.enabled` is truthy: when `pb.e2e.decrypt` of the ciphertext returns a text that
`JSON.parse` maps to a payload `p` of type `mirror`, `sms_changed` or `clip`, the handler
returns and its one call of a collaborator hands over `p` itself, to `pbPush.enqueuePush` for
`mirror` and `sms_changed` and to `pbClipboard.receiveClip` for `clip`; when `decrypt` raises,
or its result does not parse, the handler returns without any dispatch. -/
theorem decryption_round_trip (h : Host) (pb evData message push encrypted enabled ciphertext :
    JSVal)
    (hparse : h.jsonParse evData = .ok message)
    (htype : getProp message "type" = .ok (.str "push"))
    (hpush : getProp message "push" = .ok push)
    (henc : getProp push "encrypted" = .ok encrypted)
    (htrue : toBoolean encrypted = true)
    (hen : getPath pb ["e2e", "enabled"] = .ok enabled)
    (hon : toBoolean enabled = true)
    (hct : getProp push "ciphertext" = .ok ciphertext) :
    (∀ text p type, h.decrypt ciphertext = .ok text → h.jsonParse text = .ok p →
      getProp p "type" = .ok type →
      (onMessage h pb evData).raised = none ∧
      (type = .str "mirror" ∨ type = .str "sms_changed" →
        dispatched (onMessage h pb evData).calls = [.enqueuePush [p, .bool true]]) ∧
      (type = .str "clip" →
        dispatched (onMessage h pb evData).calls = [.receiveClip [p]])) ∧
    (∀ e, h.decrypt ciphertext = .error e →
      (onMessage h pb evData).raised = none ∧ dispatched (onMessage h pb evData).calls = []) ∧
    (∀ text e, h.decrypt ciphertext = .ok text → h.jsonParse text = .error e →
      (onMessage h pb evData).raised = none ∧ dispatched (onMessage h pb evData).calls = []) := by
  rw [onMessage_encrypted_enabled h pb evData message push encrypted enabled hparse htype hpush
    henc htrue hen hon, decryptPush_eq h pb push enabled ciphertext hen hct]
  refine ⟨?_, ?_, ?_⟩
  · intro text p type hd hp hty
    simp only [hd, hp]
    refine ⟨dispatchPush_raised _ p type hty, ?_, ?_⟩
    · intro hm
      rw [dispatchPush_enqueue _ p type hty hm]; rfl
    · intro hc
      subst hc
      rw [dispatchPush_clip _ p hty]; rfl
  · intro e hd
    simp [hd, dispatched, Call.isDispatch, messageLog, decryptWarn]
  · intro text e hd hp
    simp [hd, hp, dispatched, Call.isDispatch, messageLog, decryptWarn]

/-- Witness of C10: with `pb.e2e.enabled` true, the ciphertext `c1` decrypts to the text of
the payload `{"type":"clip","body":"b"}`, and that payload is handed to
`pbClipboard.receiveClip`. -/
theorem decryption_round_trip_witness :
    dispatched (onMessage sampleHost (samplePb [] [] [] true)
      (.str "\x7b\"type\":\"push\",\"push\":\x7b\"encrypted\":true,\"ciphertext\":\"c1\"\x7d\x7d")).calls =
      [.receiveClip [.obj 3 [("type", .str "clip"), ("body", .str "b")]]] :=
  ((decryption_round_trip sampleHost (samplePb [] [] [] true)
    (.str "\x7b\"type\":\"push\",\"push\":\x7b\"encrypted\":true,\"ciphertext\":\"c1\"\x7d\x7d")
    (.obj 1 [("type", .str "push"),
      ("push", .obj 2 [("encrypted", .bool true), ("ciphertext", .str "c1")])])
    (.obj 2 [("encrypted", .bool true), ("ciphertext", .str "c1")])
    (.bool true) (.bool true) (.str "c1") rfl rfl rfl rfl rfl rfl rfl rfl).1
    (.str "\x7b\"type\":\"clip\",\"body\":\"b\"\x7d")
    (.obj 3 [("type", .str "clip"), ("body", .str "b")]) (.str "clip") rfl rfl rfl).2.2 rfl

/-! ## Lemmas on the defaults merge -/

theorem getConfigurationDefaults_eq (b : Boot) :
    getConfigurationDefaults b = configurationItems.map (fun p => (p.1, p.2.default b)) := by
  simp [getConfigurationDefaults, objectKeys, configurationItems, getItem, List.lookup, setProp]

theorem setProp_of_lookup (objs : Props) (key : String) (value : JSVal)
    (hl : objs.lookup key = some value) : setProp objs key value = objs := by
  induction objs with
  | nil => simp [List.lookup] at hl
  | cons p rest ih =>
    obtain ⟨k, w⟩ := p
    by_cases hk : k = key
    · subst hk
      simp [List.lookup] at hl
      simp [setProp, hl]
    · have hb : (key == k) = false := beq_eq_false_iff_ne.mpr (fun e => hk e.symm)
      simp [List.lookup, hb] at hl
      simp [setProp, hk, ih hl]

theorem lookup_mergeEntry_self (object : Props) (k : String) (d : JSVal) :
    (mergeEntry object (k, d)).lookup k = some (mergeValue (object.lookup k) d) := by
  simp [mergeEntry, lookup_setProp_self]

theorem lookup_mergeEntry_other (object : Props) (k other : String) (d : JSVal)
    (ho : other ≠ k) : (mergeEntry object (k, d)).lookup other = object.lookup other := by
  simp [mergeEntry, lookup_setProp_other _ _ _ _ ho]

theorem lookup_mergeProps_absent (source : Props) : ∀ (object : Props) (k : String),
    source.lookup k = none → (mergeProps object source).lookup k = object.lookup k := by
  induction source with
  | nil => intro object k _; simp [mergeProps]
  | cons p rest ih =>
    intro object k hk
    obtain ⟨k1, d1⟩ := p
    cases hb : k == k1 with
    | true => simp only [List.lookup_cons, hb] at hk; cases hk
    | false =>
      simp only [List.lookup_cons, hb] at hk
      simp only [mergeProps]
      rw [ih _ k hk, lookup_mergeEntry_other _ _ _ _ (beq_eq_false_iff_ne.mp hb)]

theorem lookup_none_of_not_mem (source : Props) (k : String)
    (hk : k ∉ source.map Prod.fst) : source.lookup k = none := by
  induction source with
  | nil => rfl
  | cons p rest ih =>
    obtain ⟨k1, d1⟩ := p
    simp only [List.map_cons, List.mem_cons, not_or] at hk
    have hb : (k == k1) = false := beq_eq_false_iff_ne.mpr hk.1
    simp only [List.lookup_cons, hb]
    exact ih hk.2

theorem lookup_of_mem (source : Props) (k : String) (d : JSVal)
    (hnd : (source.map Prod.fst).Nodup) (hp : (k, d) ∈ source) : source.lookup k = some d := by
  induction source with
  | nil => cases hp
  | cons p rest ih =>
    obtain ⟨k1, d1⟩ := p
    simp only [List.map_cons, List.nodup_cons] at hnd
    rcases List.mem_cons.mp hp with heq | hmem
    · cases heq
      simp [List.lookup_cons]
    · have hne : k ≠ k1 := fun e => hnd.1 (e ▸ List.mem_map_of_mem Prod.fst hmem)
      have hb : (k == k1) = false := beq_eq_false_iff_ne.mpr hne
      simp only [List.lookup_cons, hb]
      exact ih hnd.2 hmem

theorem lookup_mergeProps_present (source : Props) : ∀ (object : Props) (k : String) (d : JSVal),
    (source.map Prod.fst).Nodup → source.lookup k = some d →
    (mergeProps object source).lookup k = some (mergeValue (object.lookup k) d) := by
  induction source with
  | nil => intro object k d _ hk; cases hk
  | cons p rest ih =>
    intro object k d hnd hk
    obtain ⟨k1, d1⟩ := p
    simp only [List.map_cons, List.nodup_cons] at hnd
    obtain ⟨hnotin, hnd⟩ := hnd
    cases hb : k == k1 with
    | true =>
      simp only [List.lookup_cons, hb, Option.some.injEq] at hk
      have hkk : k = k1 := by simpa using hb
      subst hkk
      subst hk
      simp only [mergeProps]
      rw [lookup_mergeProps_absent rest _ k (lookup_none_of_not_mem rest k hnotin),
        lookup_mergeEntry_self]
    | false =>
      simp only [List.lookup_cons, hb] at hk
      simp only [mergeProps]
      rw [ih _ k d hnd hk, lookup_mergeEntry_other _ _ _ _ (beq_eq_false_iff_ne.mp hb)]

theorem mergeProps_fixed (source : Props) : ∀ (object : Props),
    (∀ p ∈ source, ∃ v, object.lookup p.1 = some v ∧ mergeValue (some v) p.2 = v) →
    mergeProps object source = object := by
  induction source with
  | nil => intro object _; simp [mergeProps]
  | cons p rest ih =>
    intro object hfix
    obtain ⟨k1, d1⟩ := p
    obtain ⟨v, hv, hm⟩ := hfix (k1, d1) (List.mem_cons_self _ _)
    have hstep : mergeEntry object (k1, d1) = object := by
      simp only [mergeEntry, hv, hm]
      exact setProp_of_lookup object k1 v hv
    simp only [mergeProps, hstep]
    exact ih object (fun p hp => hfix p (List.mem_cons_of_mem _ hp))

theorem mergeProps_idem (source : Props) (hnd : (source.map Prod.fst).Nodup)
    (hgood : ∀ p ∈ source, ∀ o, mergeValue (some (mergeValue o p.2)) p.2 = mergeValue o p.2)
    (object : Props) :
    mergeProps (mergeProps object source) source = mergeProps object source := by
  apply mergeProps_fixed
  intro p hp
  obtain ⟨k, d⟩ := p
  have hl : source.lookup k = some d := lookup_of_mem source k d hnd hp
  exact ⟨_, lookup_mergeProps_present source object k d hnd hl, hgood (k, d) hp _⟩

theorem mergeValue_good_leaf (d : JSVal) (hd : ∀ sa sprops, d ≠ .obj sa sprops)
    (o : Option JSVal) : mergeValue (some (mergeValue o d)) d = mergeValue o d := by
  cases d with
  | obj sa sprops => exact absurd rfl (hd sa sprops)
  | undefined => cases o with
    | none => simp [mergeValue]
    | some v => cases v <;> simp [mergeValue]
  | null => cases o with
    | none => simp [mergeValue]
    | some v => cases v <;> simp [mergeValue]
  | bool b => cases o with
    | none => simp [mergeValue]
    | some v => cases v <;> simp [mergeValue]
  | num n => cases o with
    | none => simp [mergeValue]
    | some v => cases v <;> simp [mergeValue]
  | nan => cases o with
    | none => simp [mergeValue]
    | some v => cases v <;> simp [mergeValue]
  | str s => cases o with
    | none => simp [mergeValue]
    | some v => cases v <;> simp [mergeValue]
  | arr a items => cases o with
    | none => simp [mergeValue]
    | some v => cases v <;> simp [mergeValue]

theorem mergeValue_good_obj (sa : Nat) (sprops : Props)
    (hidem : ∀ object, mergeProps (mergeProps object sprops) sprops = mergeProps object sprops)
    (o : Option JSVal) :
    mergeValue (some (mergeValue o (.obj sa sprops))) (.obj sa sprops) =
      mergeValue o (.obj sa sprops) := by
  cases o with
  | none => simp [mergeValue, hidem]
  | some v => cases v <;> simp [mergeValue, hidem]

theorem boundsDefault_idem (object : Props) :
    mergeProps (mergeProps object
        [("x", .num 256), ("y", .num 256), ("width", .num 320), ("height", .num 640)])
        [("x", .num 256), ("y", .num 256), ("width", .num 320), ("height", .num 640)] =
      mergeProps object
        [("x", .num 256), ("y", .num 256), ("width", .num 320), ("height", .num 640)] := by
  apply mergeProps_idem
  · decide
  · intro p hp o
    simp only [List.mem_cons, List.mem_singleton, List.not_mem_nil, or_false] at hp
    rcases hp with rfl | rfl | rfl | rfl <;>
      exact mergeValue_good_leaf _ (fun _ _ h => by cases h) o

theorem default_good (b : Boot) (i : Item) (o : Option JSVal) :
    mergeValue (some (mergeValue o (i.default b))) (i.default b) = mergeValue o (i.default b) := by
  cases i
  case windowBounds => exact mergeValue_good_obj _ _ boundsDefault_idem o
  all_goals exact mergeValue_good_leaf _ (fun _ _ h => by cases h) o

theorem configurationItems_nodup : (configurationItems.map Prod.fst).Nodup := by
  decide

theorem defaults_nodup (b : Boot) : ((getConfigurationDefaults b).map Prod.fst).Nodup := by
  rw [getConfigurationDefaults_eq, List.map_map]
  exact configurationItems_nodup

theorem defaults_good (b : Boot) : ∀ p ∈ getConfigurationDefaults b, ∀ o,
    mergeValue (some (mergeValue o p.2)) p.2 = mergeValue o p.2 := by
  intro p hp o
  rw [getConfigurationDefaults_eq] at hp
  obtain ⟨q, _, rfl⟩ := List.mem_map.mp hp
  exact default_good b q.2 o

/-- C14. The defaults merge is idempotent: applying `setConfigurationDefaults` to the
settings it has produced leaves the same persisted settings, for every persisted store and
for fixed defaults of the registry. -/
theorem defaults_idempotent (b : Boot) (st : Settings) :
    (setConfigurationDefaults b (setConfigurationDefaults b st)).store =
      (setConfigurationDefaults b st).store := by
  simp only [setConfigurationDefaults, Settings.call]
  exact mergeProps_idem (getConfigurationDefaults b) (defaults_nodup b) (defaults_good b)
    st.store

/-! ## What the defaults merge keeps and what it fills -/

theorem mem_of_lookup {α : Type} (l : List (String × α)) (k : String) (v : α)
    (hl : l.lookup k = some v) : (k, v) ∈ l := by
  induction l with
  | nil => cases hl
  | cons p rest ih =>
    obtain ⟨k1, v1⟩ := p
    cases hb : k == k1 with
    | true =>
      simp only [List.lookup_cons, hb, Option.some.injEq] at hl
      have hkk : k = k1 := by simpa using hb
      rw [hkk, hl]
      exact List.mem_cons_self _ _
    | false =>
      simp only [List.lookup_cons, hb] at hl
      exact List.mem_cons_of_mem _ (ih hl)

theorem lookup_map_default (b : Boot) (l : List (String × Item)) (k : String) :
    (l.map (fun p => (p.1, p.2.default b))).lookup k = (l.lookup k).map (Item.default b) := by
  induction l with
  | nil => rfl
  | cons p rest ih =>
    obtain ⟨k1, i1⟩ := p
    cases hb : k == k1 <;> simp [List.lookup_cons, hb, ih]

theorem lookup_defaults (b : Boot) (k : String) :
    (getConfigurationDefaults b).lookup k =
      (configurationItems.lookup k).map (Item.default b) := by
  rw [getConfigurationDefaults_eq, lookup_map_default]

theorem keypath_of_mem : ∀ p ∈ configurationItems, p.2.keypath = p.1 := by
  decide

theorem keypath_of_lookup (k : String) (i : Item) (hl : configurationItems.lookup k = some i) :
    i.keypath = k :=
  keypath_of_mem (k, i) (mem_of_lookup configurationItems k i hl)

theorem mergeValue_kept (v d : JSVal) (hv : v ≠ .undefined)
    (hleaf : (∀ a props, v ≠ .obj a props) ∨ (∀ sa sprops, d ≠ .obj sa sprops)) :
    mergeValue (some v) d = v := by
  cases d with
  | obj sa sprops =>
    rcases hleaf with hl | hl
    · cases v with
      | undefined => exact absurd rfl hv
      | obj a props => exact absurd rfl (hl a props)
      | _ => simp [mergeValue]
    · exact absurd rfl (hl sa sprops)
  | _ =>
    cases v with
    | undefined => exact absurd rfl hv
    | _ => simp [mergeValue]

theorem default_leaf (b : Boot) (i : Item) (hi : i ≠ .windowBounds) :
    ∀ sa sprops, i.default b ≠ .obj sa sprops := by
  intro sa sprops h
  cases i
  case windowBounds => exact hi rfl
  all_goals cases h

theorem mergeValue_none_default (b : Boot) (i : Item) :
    mergeValue none (i.default b) = i.default b := by
  cases i <;> rfl

theorem setConfigurationDefaults_store (b : Boot) (st : Settings) :
    (setConfigurationDefaults b st).store = mergeProps st.store (getConfigurationDefaults b) := by
  simp only [setConfigurationDefaults, Settings.call]

theorem boundsDefault_leaf (f : String) (d : JSVal) (hl : boundsDefault.lookup f = some d) :
    ∀ sa sprops, d ≠ .obj sa sprops := by
  have hm := mem_of_lookup boundsDefault f d hl
  simp only [boundsDefault, List.mem_cons, List.mem_singleton, List.not_mem_nil, or_false,
    Prod.mk.injEq] at hm
  intro sa sprops h
  rcases hm with ⟨_, rfl⟩ | ⟨_, rfl⟩ | ⟨_, rfl⟩ | ⟨_, rfl⟩ <;> cases h

theorem boundsDefault_nodup : (boundsDefault.map Prod.fst).Nodup := by
  decide

theorem mergeValue_none_leaf (d : JSVal) (hd : ∀ sa sprops, d ≠ .obj sa sprops) :
    mergeValue none d = d := by
  cases d with
  | obj sa sprops => exact absurd rfl (hd sa sprops)
  | _ => simp [mergeValue]

/-- C15, as stated, fails: the persisted store `{windowBounds: {x: 1}}` holds a record with
only some of its fields, and after `setConfigurationDefaults` the key `windowBounds` holds
another value, the record completed with the default `y`, `width` and `height`. -/
theorem defaults_merge_counterexample :
    (sampleSettings [("windowBounds", .obj 5 [("x", .num 1)])]).store.lookup "windowBounds" =
      some (.obj 5 [("x", .num 1)]) ∧
    (setConfigurationDefaults sampleBoot
        (sampleSettings [("windowBounds", .obj 5 [("x", .num 1)])])).store.lookup
        "windowBounds" =
      some (.obj 5 [("x", .num 1), ("y", .num 256), ("width", .num 320), ("height", .num 640)]) ∧
    (setConfigurationDefaults sampleBoot
        (sampleSettings [("windowBounds", .obj 5 [("x", .num 1)])])).store.lookup
        "windowBounds" ≠
      some (.obj 5 [("x", .num 1)]) := by
  have h2 : (setConfigurationDefaults sampleBoot
        (sampleSettings [("windowBounds", .obj 5 [("x", .num 1)])])).store.lookup
        "windowBounds" =
      some (.obj 5 [("x", .num 1), ("y", .num 256), ("width", .num 320), ("height", .num 640)]) :=
    rfl
  refine ⟨rfl, h2, ?_⟩
  rw [h2]
  intro h
  cases h

/-- C15, amended. After `setConfigurationDefaults`: every persisted key whose value is not
`undefined` keeps exactly its value, also a key that is not in the registry, unless it is a
record under `windowBounds`; a record under `windowBounds` keeps every field it holds and
gains the default of each field of the default bounds that it lacks; and every registry key
that was absent has the default of its entry. -/
theorem defaults_merge (b : Boot) (st : Settings) :
    (∀ k v, st.store.lookup k = some v → v ≠ .undefined →
      (k ≠ "windowBounds" ∨ ∀ a props, v ≠ .obj a props) →
      (setConfigurationDefaults b st).store.lookup k = some v) ∧
    (∀ a props, st.store.lookup "windowBounds" = some (.obj a props) →
      ∃ filled,
        (setConfigurationDefaults b st).store.lookup "windowBounds" = some (.obj a filled) ∧
        (∀ f w, props.lookup f = some w → w ≠ .undefined → filled.lookup f = some w) ∧
        (∀ f d, boundsDefault.lookup f = some d → props.lookup f = none →
          filled.lookup f = some d)) ∧
    (∀ name i, configurationItems.lookup name = some i → st.store.lookup name = none →
      (setConfigurationDefaults b st).store.lookup name = some (i.default b)) := by
  rw [setConfigurationDefaults_store]
  refine ⟨?_, ?_, ?_⟩
  · intro k v hk hv hleaf
    cases hi : configurationItems.lookup k with
    | none =>
      have hd : (getConfigurationDefaults b).lookup k = none := by
        rw [lookup_defaults, hi]; rfl
      rw [lookup_mergeProps_absent (getConfigurationDefaults b) st.store k hd, hk]
    | some i =>
      have hd : (getConfigurationDefaults b).lookup k = some (i.default b) := by
        rw [lookup_defaults, hi]; rfl
      have hm : mergeValue (some v) (i.default b) = v := by
        apply mergeValue_kept v (i.default b) hv
        rcases hleaf with hne | hleaf
        · right
          apply default_leaf b i
          intro hiw
          rw [hiw] at hi
          exact hne (keypath_of_lookup k _ hi).symm
        · left; exact hleaf
      rw [lookup_mergeProps_present (getConfigurationDefaults b) st.store k (i.default b)
        (defaults_nodup b) hd, hk, hm]
  · intro a props hk
    have hd : (getConfigurationDefaults b).lookup "windowBounds" =
        some (Item.default b .windowBounds) := by
      rw [lookup_defaults]; rfl
    have hm : mergeValue (some (.obj a props)) (Item.default b .windowBounds) =
        .obj a (mergeProps props boundsDefault) := by
      simp [Item.default, mergeValue, boundsDefault]
    refine ⟨mergeProps props boundsDefault, ?_, ?_, ?_⟩
    · rw [lookup_mergeProps_present (getConfigurationDefaults b) st.store "windowBounds"
        (Item.default b .windowBounds) (defaults_nodup b) hd, hk, hm]
    · intro f w hf hw
      cases hdf : boundsDefault.lookup f with
      | none => rw [lookup_mergeProps_absent boundsDefault props f hdf, hf]
      | some d =>
        rw [lookup_mergeProps_present boundsDefault props f d boundsDefault_nodup hdf, hf,
          mergeValue_kept w d hw (Or.inr (boundsDefault_leaf f d hdf))]
    · intro f d hdf hf
      rw [lookup_mergeProps_present boundsDefault props f d boundsDefault_nodup hdf, hf,
        mergeValue_none_leaf d (boundsDefault_leaf f d hdf)]
  · intro name i hi hk
    have hd : (getConfigurationDefaults b).lookup name = some (i.default b) := by
      rw [lookup_defaults, hi]; rfl
    rw [lookup_mergeProps_present (getConfigurationDefaults b) st.store name (i.default b)
      (defaults_nodup b) hd, hk, mergeValue_none_default]

/-- Witness of the amended C15: on the store `{legacy: "v", windowBounds: {x: 1}}` the key
`legacy` keeps its value, `windowBounds` keeps `x` and gains `y`, and the absent key
`appTrayOnly` gets its default `false`. -/
theorem defaults_merge_witness :
    (setConfigurationDefaults sampleBoot
        (sampleSettings [("legacy", .str "v"), ("windowBounds", .obj 5 [("x", .num 1)])])
      ).store.lookup "legacy" = some (.str "v") ∧
    (∃ filled, (setConfigurationDefaults sampleBoot
        (sampleSettings [("legacy", .str "v"), ("windowBounds", .obj 5 [("x", .num 1)])])
      ).store.lookup "windowBounds" = some (.obj 5 filled) ∧
      filled.lookup "x" = some (.num 1) ∧ filled.lookup "y" = some (.num 256)) ∧
    (setConfigurationDefaults sampleBoot
        (sampleSettings [("legacy", .str "v"), ("windowBounds", .obj 5 [("x", .num 1)])])
      ).store.lookup "appTrayOnly" = some (.bool false) := by
  have T := defaults_merge sampleBoot
    (sampleSettings [("legacy", .str "v"), ("windowBounds", .obj 5 [("x", .num 1)])])
  refine ⟨T.1 "legacy" (.str "v") rfl (fun h => by cases h) (Or.inl (by decide)), ?_,
    T.2.2 "appTrayOnly" .appTrayOnly rfl rfl⟩
  obtain ⟨filled, h1, h2, h3⟩ := T.2.1 5 [("x", .num 1)] rfl
  exact ⟨filled, h1, h2 "x" (.num 1) rfl (fun h => by cases h), h3 "y" (.num 256) rfl rfl⟩

/-! ## The legacy sweep -/

theorem splitKeyPathAux_no_dot (cs : List Char) : ∀ current : List Char, '.' ∉ cs →
    splitKeyPathAux current cs = [String.mk (current.reverse ++ cs)] := by
  induction cs with
  | nil => intro current _; simp [splitKeyPathAux]
  | cons c rest ih =>
    intro current hdot
    have hc : c ≠ '.' := fun e => hdot (e ▸ List.mem_cons_self _ _)
    have hrest : '.' ∉ rest := fun hm => hdot (List.mem_cons_of_mem _ hm)
    simp only [splitKeyPathAux, hc, if_false]
    rw [ih (c :: current) hrest]
    simp

theorem splitKeyPath_no_dot (keyPath : String) (hdot : '.' ∉ keyPath.data) :
    splitKeyPath keyPath = [keyPath] := by
  simp [splitKeyPath, splitKeyPathAux_no_dot keyPath.data [] hdot]

theorem storeDelete_no_dot (store : Props) (keyPath : String) (hdot : '.' ∉ keyPath.data) :
    storeDelete store keyPath = .ok (store.filter (fun p => !(p.1 == keyPath))) := by
  simp [storeDelete, splitKeyPath_no_dot keyPath hdot, deleteAtKeys, deleteOwn]

theorem removeLegacyStep_no_dot (length : Nat) (run : SweepRun) (p : Nat × String)
    (hr : run.raised = none) (hdot : '.' ∉ p.2.data) :
    (removeLegacyStep length run p).raised = none ∧
    (removeLegacyStep length run p).settings.store =
      if configurationItems.any (fun q => q.1 == p.2) then run.settings.store
      else run.settings.store.filter (fun q => !(q.1 == p.2)) := by
  unfold removeLegacyStep
  simp only [hr, storeDelete_no_dot _ p.2 hdot]
  by_cases hreg : configurationItems.any (fun q => q.1 == p.2) = true <;>
    by_cases hlast : length = p.1 + 1 <;>
    simp [hreg, hlast, Settings.call]

theorem removeLegacy_fold_no_dot (length : Nat) (l : List (Nat × String)) :
    ∀ run : SweepRun, run.raised = none → (∀ k ∈ l.map Prod.snd, '.' ∉ k.data) →
      (l.foldl (removeLegacyStep length) run).raised = none ∧
      (l.foldl (removeLegacyStep length) run).settings.store =
        (l.map Prod.snd).foldl
          (fun s k => if configurationItems.any (fun q => q.1 == k) then s
            else s.filter (fun q => !(q.1 == k)))
          run.settings.store := by
  induction l with
  | nil => intro run hr _; exact ⟨hr, rfl⟩
  | cons p rest ih =>
    intro run hr hdot
    have hp : '.' ∉ p.2.data := hdot p.2 (by simp)
    obtain ⟨h1, h2⟩ := removeLegacyStep_no_dot length run p hr hp
    obtain ⟨h3, h4⟩ := ih (removeLegacyStep length run p) h1
      (fun k hk => hdot k (by simp only [List.map_cons, List.mem_cons]; exact Or.inr hk))
    simp only [List.foldl_cons, List.map_cons]
    exact ⟨h3, by rw [h4, h2]⟩

theorem sweep_fold_eq_filter (keys : List String) : ∀ store : Props,
    keys.foldl
        (fun s k => if configurationItems.any (fun q => q.1 == k) then s
          else s.filter (fun q => !(q.1 == k)))
        store =
      store.filter (fun p => configurationItems.any (fun q => q.1 == p.1) ||
        !decide (p.1 ∈ keys)) := by
  induction keys with
  | nil => intro store; simp
  | cons k ks ih =>
    intro store
    simp only [List.foldl_cons]
    rw [ih]
    cases hreg : configurationItems.any (fun q => q.1 == k) with
    | true =>
      simp only [if_true]
      apply List.filter_congr
      intro p _
      by_cases hpk : p.1 = k
      · have : configurationItems.any (fun q => q.1 == p.1) = true := by rw [hpk]; exact hreg
        simp [this]
      · simp [List.mem_cons, hpk]
    | false =>
      simp only [Bool.false_eq_true, if_false, List.filter_filter]
      apply List.filter_congr
      intro p _
      by_cases hpk : p.1 = k
      · simp only [hpk, hreg, beq_self_eq_true, Bool.not_true, Bool.false_and, Bool.false_or,
          List.mem_cons, true_or, decide_True, Bool.and_false]
      · simp [List.mem_cons, hpk]

theorem removeLegacyItems_no_dot (st : Settings)
    (hdot : ∀ k ∈ objectKeys st.store, '.' ∉ k.data) :
    (removeLegacyItems st).raised = none ∧
    (removeLegacyItems st).settings.store =
      st.store.filter (fun p => configurationItems.any (fun q => q.1 == p.1)) := by
  unfold removeLegacyItems
  simp only [Settings.call]
  obtain ⟨h1, h2⟩ := removeLegacy_fold_no_dot (objectKeys st.store).length
    (objectKeys st.store).enum
    ⟨{ st with calls := st.calls ++ [SysCall.loggerDebug [JSVal.str "cleanConfiguration"]] }, none⟩
    rfl (by rw [List.enum_map_snd]; exact hdot)
  refine ⟨h1, ?_⟩
  rw [h2, List.enum_map_snd, sweep_fold_eq_filter]
  apply List.filter_congr
  intro p hp
  have hmem : p.1 ∈ objectKeys st.store := List.mem_map_of_mem Prod.fst hp
  simp only [hmem, decide_True, Bool.not_true, Bool.or_false]

theorem lookup_filter_key (f : String → Bool) (l : Props) (k : String) :
    (l.filter (fun p => f p.1)).lookup k = if f k then l.lookup k else none := by
  induction l with
  | nil => simp [List.lookup]
  | cons p rest ih =>
    obtain ⟨k1, v1⟩ := p
    cases hb : k == k1 with
    | true =>
      have hkk : k = k1 := by simpa using hb
      subst hkk
      cases hf : f k with
      | true => simp [List.filter_cons, hf, List.lookup_cons]
      | false => simp [List.filter_cons, hf, ih]
    | false =>
      cases hf1 : f k1 with
      | true => simp [List.filter_cons, hf1, List.lookup_cons, hb, ih]
      | false => simp [List.filter_cons, hf1, List.lookup_cons, hb, ih]

/-- C13, as stated, fails: `electronSettings.delete` takes a key path. With the persisted
store `{"a.b": 1}`, the key `a.b` is not in the registry and is still persisted after
`removeLegacyItems`, which looked for `b` inside `a`. With the persisted store
`{"windowBounds": {"x": 1, "y": 2}, "windowBounds.x": 0}`, the sweep removes the field `x`
of the registry key `windowBounds` and keeps the key `windowBounds.x`. -/
theorem legacy_sweep_counterexample :
    configurationItems.any (fun q => q.1 == "a.b") = false ∧
    (removeLegacyItems (sampleSettings [("a.b", .num 1)])).settings.store =
      [("a.b", .num 1)] ∧
    (removeLegacyItems (sampleSettings
      [("windowBounds", .obj 3 [("x", .num 1), ("y", .num 2)]),
       ("windowBounds.x", .num 0)])).settings.store =
      [("windowBounds", .obj 3 [("y", .num 2)]), ("windowBounds.x", .num 0)] :=
  ⟨rfl, rfl, rfl⟩

/-- C13, amended. Legacy sweep. For every persisted store whose top-level keys contain no
dot, `removeLegacyItems` returns, and afterwards the persisted settings are exactly the
persisted entries whose key is a property name of the registry, in their order and with their
values: a key of the registry keeps its value, and every other key is gone. -/
theorem legacy_sweep (st : Settings) (hdot : ∀ k ∈ objectKeys st.store, '.' ∉ k.data) :
    (removeLegacyItems st).raised = none ∧
    (removeLegacyItems st).settings.store =
      st.store.filter (fun p => configurationItems.any (fun q => q.1 == p.1)) ∧
    objectKeys (removeLegacyItems st).settings.store =
      (objectKeys st.store).filter (fun k => configurationItems.any (fun q => q.1 == k)) ∧
    (∀ k, configurationItems.any (fun q => q.1 == k) = true →
      (removeLegacyItems st).settings.store.lookup k = st.store.lookup k) ∧
    (∀ k, configurationItems.any (fun q => q.1 == k) = false →
      (removeLegacyItems st).settings.store.lookup k = none) := by
  obtain ⟨hr, hs⟩ := removeLegacyItems_no_dot st hdot
  rw [hs]
  refine ⟨hr, rfl, ?_, ?_, ?_⟩
  · simp only [objectKeys, List.filter_map]
    rfl
  · intro k hk
    rw [lookup_filter_key (fun k => configurationItems.any (fun q => q.1 == k)), hk]
    rfl
  · intro k hk
    rw [lookup_filter_key (fun k => configurationItems.any (fun q => q.1 == k)), hk]
    rfl

/-- Witness of the amended C13: with the persisted keys `appChangelog`, `appLogFile` and `C`,
the sweep leaves `appChangelog` and `appLogFile` with their values and removes `C`. -/
theorem legacy_sweep_witness :
    (removeLegacyItems (sampleSettings
      [("appChangelog", .str "a"), ("appLogFile", .null), ("C", .num 3)])).settings.store =
      [("appChangelog", .str "a"), ("appLogFile", .null)] ∧
    (removeLegacyItems (sampleSettings
      [("appChangelog", .str "a"), ("appLogFile", .null), ("C", .num 3)])).settings.store.lookup
      "appLogFile" = some .null ∧
    (removeLegacyItems (sampleSettings
      [("appChangelog", .str "a"), ("appLogFile", .null), ("C", .num 3)])).settings.store.lookup
      "C" = none := by
  have T := legacy_sweep (sampleSettings
      [("appChangelog", .str "a"), ("appLogFile", .null), ("C", .num 3)])
    (by decide)
  exact ⟨T.2.1, T.2.2.2.1 "appLogFile" rfl, T.2.2.2.2 "C" rfl⟩

/-! ## The lookup of an entry -/

theorem lookup_of_any {α : Type} (l : List (String × α)) (k : String)
    (hany : l.any (fun q => q.1 == k) = true) : ∃ v, l.lookup k = some v := by
  induction l with
  | nil => simp at hany
  | cons p rest ih =>
    obtain ⟨k1, v1⟩ := p
    cases hb : k == k1 with
    | true => exact ⟨v1, by simp only [List.lookup_cons, hb]⟩
    | false =>
      have hne : (k1 == k) = false := by
        rw [beq_eq_false_iff_ne] at hb ⊢
        exact fun e => hb e.symm
      simp only [List.any_cons, hne, Bool.false_or] at hany
      obtain ⟨v, hv⟩ := ih hany
      exact ⟨v, by simp only [List.lookup_cons, hb, hv]⟩

/-- C12, as stated, fails: `unknownKey` is not a property name of the registry, and `getItem`
returns `undefined` for it instead of raising an error. -/
theorem unknown_key_counterexample :
    configurationItems.any (fun q => q.1 == "unknownKey") = false ∧
    getItem "unknownKey" = .ok none :=
  ⟨rfl, rfl⟩

/-- C12, amended. `getItem` never raises: for a key that is not a property name of the
registry it returns `undefined`, and for a property name of the registry it returns the
entry under that name, whose keypath is that name. -/
theorem getItem_lookup (playlistItemId : String) :
    (configurationItems.any (fun q => q.1 == playlistItemId) = false →
      getItem playlistItemId = .ok none) ∧
    (configurationItems.any (fun q => q.1 == playlistItemId) = true →
      ∃ i, getItem playlistItemId = .ok (some i) ∧ i.keypath = playlistItemId ∧
        (playlistItemId, i) ∈ configurationItems) := by
  refine ⟨?_, ?_⟩
  · intro hany
    simp [getItem, hany]
  · intro hany
    obtain ⟨i, hi⟩ := lookup_of_any configurationItems playlistItemId hany
    refine ⟨i, ?_, keypath_of_lookup playlistItemId i hi,
      mem_of_lookup configurationItems playlistItemId i hi⟩
    simp only [getItem, hany, if_true, hi]

/-- Witness of the amended C12: `getItem` returns `undefined` for `unknownKey` and the entry
`windowBounds` for `windowBounds`. -/
theorem getItem_lookup_witness :
    getItem "unknownKey" = .ok none ∧
    (∃ i, getItem "windowBounds" = .ok (some i) ∧ i.keypath = "windowBounds" ∧
      ("windowBounds", i) ∈ configurationItems) :=
  ⟨(getItem_lookup "unknownKey").1 rfl, (getItem_lookup "windowBounds").2 rfl⟩

/-! ## The accessors of the entries -/

theorem implement_store (i : Item) (value : JSVal) (st : Settings) :
    (i.implement value st).store = st.store := by
  cases i <;> simp only [Item.implement, Settings.call] <;> (try split) <;> rfl

theorem get_value (parseFloat : JSVal → JSVal) (i : Item) (st : Settings) :
    (i.get parseFloat st).1 =
      if i = .pushbulletSoundVolume then parseFloat (storeGet st.store i.keypath)
      else storeGet st.store i.keypath := by
  cases i <;> simp [Item.get, Settings.call]

theorem set_store_direct (parseFloat : JSVal → JSVal) (i : Item) (value : JSVal) (st : Settings)
    (h1 : i ≠ .windowBounds) (h2 : i ≠ .windowVisible) :
    (i.set parseFloat value st).store =
      storeSet st.store i.keypath
        (if i = .pushbulletSoundVolume then parseFloat value else value) := by
  cases i
  case windowBounds => exact absurd rfl h1
  case windowVisible => exact absurd rfl h2
  all_goals simp [Item.set, Settings.write, Settings.call, implement_store]

theorem set_deferred (parseFloat : JSVal → JSVal) (i : Item) (value : JSVal) (st : Settings)
    (h : i = .windowBounds ∨ i = .windowVisible) :
    (i.set parseFloat value st).store = st.store ∧
    (i.set parseFloat value st).pending = st.pending ++ [⟨defaultDebounce, i.keypath, value⟩] := by
  rcases h with rfl | rfl <;> exact ⟨rfl, rfl⟩

theorem storeGet_storeSet (store : Props) (key : String) (value : JSVal) :
    storeGet (storeSet store key value) key = (toJson value).getD .undefined := by
  unfold storeSet storeGet
  cases toJson value with
  | some stored => simp [lookup_setProp_self]
  | none =>
    simp only [lookup_filter_key (fun k => !(k == key)) store key, beq_self_eq_true,
      Bool.not_true, Bool.false_eq_true, if_false]

theorem advance_store_last (st : Settings) (pending : List Debounced) (key : String)
    (value : JSVal) (hp : st.pending = pending ++ [⟨defaultDebounce, key, value⟩]) :
    storeGet (st.advance defaultDebounce).store key = (toJson value).getD .undefined := by
  simp only [Settings.advance, hp, List.filter_append, List.foldl_append]
  simp [storeGet_storeSet]

theorem sampleParseFloat_idem (x : JSVal) :
    sampleParseFloat (sampleParseFloat x) = sampleParseFloat x := by
  cases x with
  | str s =>
    by_cases hs : s = "0.5"
    · simp [sampleParseFloat, hs]
    · simp [sampleParseFloat, hs]
  | _ => simp [sampleParseFloat]

/-- C11, as stated, fails. With `windowVisible` persisted as `true`, the call `set(false)` of
the entry `windowVisible` followed at once by its `get()` returns `true`, the value persisted
before, and not `false`; the write is still pending. And the number `NaN`, set on the number
entry `pushbulletLastNotificationTimestamp`, is written to the settings file as `null`: the
`get()` that follows returns `null`. -/
theorem round_trip_counterexample :
    (Item.get sampleParseFloat .windowVisible
      (Item.set sampleParseFloat .windowVisible (.bool false)
        (sampleSettings [("windowVisible", .bool true)]))).1 = .bool true ∧
    JSVal.bool true ≠ JSVal.bool false ∧
    (Item.set sampleParseFloat .windowVisible (.bool false)
      (sampleSettings [("windowVisible", .bool true)])).pending.length = 1 ∧
    (Item.get sampleParseFloat .pushbulletLastNotificationTimestamp
      (Item.set sampleParseFloat .pushbulletLastNotificationTimestamp .nan
        (sampleSettings []))).1 = .null ∧
    JSVal.null ≠ JSVal.nan := by
  refine ⟨rfl, ?_, rfl, rfl, ?_⟩
  · intro h
    cases h
  · intro h
    cases h

/-- C11, amended. The registry has 16 entries. The settings file holds booleans, strings and
numbers unchanged, and `NaN` as `null`. For every entry other than `windowBounds` and
`windowVisible`, `get()` right after `set(v)` returns the JSON image of `v`, which is `v` for
every value that the file holds unchanged; for `pushbulletSoundVolume` it returns
`parseFloat(v)` whenever that is a number or `NaN`, as `parseFloat` is idempotent and maps
`null` to `NaN`. For `windowBounds` and `windowVisible`, `set(v)` leaves the store as it is
and queues the write behind a debounce of `defaultDebounce` = 1000 ms: `get()` right after
`set(v)` returns what it returned before, and `get()` after 1000 ms returns the JSON image of
`v`. -/
theorem settings_round_trip (parseFloat : JSVal → JSVal) (st : Settings) (v : JSVal) :
    configurationItems.length = 16 ∧ defaultDebounce = 1000 ∧
    ((∀ b, toJson (.bool b) = some (.bool b)) ∧ (∀ s, toJson (.str s) = some (.str s)) ∧
      (∀ n, toJson (.num n) = some (.num n)) ∧ toJson .nan = some .null) ∧
    (∀ i, i ≠ .windowBounds → i ≠ .windowVisible → i ≠ .pushbulletSoundVolume →
      (Item.get parseFloat i (Item.set parseFloat i v st)).1 = (toJson v).getD .undefined ∧
      (toJson v = some v → (Item.get parseFloat i (Item.set parseFloat i v st)).1 = v)) ∧
    ((∀ x, parseFloat (parseFloat x) = parseFloat x) → parseFloat .null = .nan →
      ((∃ n, parseFloat v = .num n) ∨ parseFloat v = .nan) →
      (Item.get parseFloat .pushbulletSoundVolume
        (Item.set parseFloat .pushbulletSoundVolume v st)).1 = parseFloat v) ∧
    (∀ i, i = .windowBounds ∨ i = .windowVisible →
      (Item.set parseFloat i v st).store = st.store ∧
      (Item.get parseFloat i (Item.set parseFloat i v st)).1 = (Item.get parseFloat i st).1 ∧
      (Item.get parseFloat i ((Item.set parseFloat i v st).advance defaultDebounce)).1 =
        (toJson v).getD .undefined ∧
      (toJson v = some v →
        (Item.get parseFloat i ((Item.set parseFloat i v st).advance defaultDebounce)).1 =
          v)) := by
  refine ⟨rfl, rfl, ⟨fun _ => by simp [toJson], fun _ => by simp [toJson],
    fun _ => by simp [toJson], by simp [toJson]⟩, ?_, ?_, ?_⟩
  · intro i h1 h2 h3
    have hget : (Item.get parseFloat i (Item.set parseFloat i v st)).1 =
        (toJson v).getD .undefined := by
      rw [get_value, set_store_direct parseFloat i v st h1 h2]
      simp only [h3, if_false]
      exact storeGet_storeSet _ _ _
    exact ⟨hget, fun hj => by rw [hget, hj]; rfl⟩
  · intro hidem hnull hnum
    rw [get_value, set_store_direct parseFloat .pushbulletSoundVolume v st
      (fun h => by cases h) (fun h => by cases h)]
    simp only [if_true]
    rw [storeGet_storeSet]
    rcases hnum with ⟨n, hn⟩ | hn
    · have h2 : parseFloat (.num n) = .num n := by rw [← hn, hidem]
      simp [hn, toJson, h2]
    · simp [hn, toJson, hnull]
  · intro i hi
    obtain ⟨hstore, hpending⟩ := set_deferred parseFloat i v st hi
    have hlater : (Item.get parseFloat i
        ((Item.set parseFloat i v st).advance defaultDebounce)).1 =
        (toJson v).getD .undefined := by
      rw [get_value, advance_store_last _ st.pending i.keypath v hpending]
      rcases hi with rfl | rfl <;> simp
    refine ⟨hstore, ?_, hlater, fun hj => by rw [hlater, hj]; rfl⟩
    rw [get_value, get_value, hstore]

/-- Witness of the amended C11: the entry `appTrayOnly` returns the value just set, the entry
`pushbulletSoundVolume` returns `0.5` after `set("0.5")`, and the entry `windowVisible`
returns the value set once 1000 ms have passed. -/
theorem settings_round_trip_witness :
    (Item.get sampleParseFloat .appTrayOnly
      (Item.set sampleParseFloat .appTrayOnly (.bool true) (sampleSettings []))).1 =
      .bool true ∧
    (Item.get sampleParseFloat .pushbulletSoundVolume
      (Item.set sampleParseFloat .pushbulletSoundVolume (.str "0.5") (sampleSettings []))).1 =
      sampleParseFloat (.str "0.5") ∧
    (Item.get sampleParseFloat .windowVisible
      ((Item.set sampleParseFloat .windowVisible (.bool false)
        (sampleSettings [("windowVisible", .bool true)])).advance defaultDebounce)).1 =
      .bool false :=
  ⟨((settings_round_trip sampleParseFloat (sampleSettings []) (.bool true)).2.2.2.1
      .appTrayOnly (fun h => by cases h) (fun h => by cases h) (fun h => by cases h)).2 rfl,
   (settings_round_trip sampleParseFloat (sampleSettings []) (.str "0.5")).2.2.2.2.1
      sampleParseFloat_idem rfl (Or.inl ⟨0.5, rfl⟩),
   ((settings_round_trip sampleParseFloat (sampleSettings [("windowVisible", .bool true)])
      (.bool false)).2.2.2.2.2 .windowVisible (Or.inr rfl)).2.2.2 rfl⟩

/-! ## The pollers -/

theorem runPoller_succ (ready completes : Nat → Bool) (n : Nat) :
    runPoller ready completes (n + 1) =
      pollerTick ready completes (runPoller ready completes n) (n + 1) := by
  simp [runPoller, List.range_succ, List.foldl_append]

theorem runPoller_waiting (ready completes : Nat → Bool) (n : Nat)
    (hnot : ∀ t, 1 ≤ t → t ≤ n → ready t = false) :
    runPoller ready completes n =
      ⟨false, (List.range n).map (fun t => .predicate (t + 1) false)⟩ := by
  induction n with
  | zero => rfl
  | succ n ih =>
    rw [runPoller_succ, ih (fun t h1 h2 => hnot t h1 (Nat.le_succ_of_le h2))]
    have hr : ready (n + 1) = false := hnot (n + 1) (Nat.succ_le_succ (Nat.zero_le n)) (Nat.le_refl _)
    simp [pollerTick, hr, List.range_succ]

theorem pollerTick_cleared (ready completes : Nat → Bool) (p : Poller) (tick : Nat)
    (hc : p.cleared = true) : pollerTick ready completes p tick = p := by
  simp [pollerTick, hc]

theorem runPoller_cleared (ready completes : Nat → Bool) (n : Nat)
    (hc : (runPoller ready completes n).cleared = true) (m : Nat) :
    runPoller ready completes (n + m) = runPoller ready completes n := by
  induction m with
  | zero => rfl
  | succ m ih =>
    rw [← Nat.add_assoc, runPoller_succ, ih]
    exact pollerTick_cleared ready completes _ _ hc

theorem filter_action_waiting (l : List Nat) :
    (l.map (fun t => PollEvent.predicate (t + 1) false)).filter
      (fun e => match e with | .action _ _ => true | _ => false) = [] := by
  induction l with
  | nil => rfl
  | cons t rest ih => simp [List.filter_cons, ih]

/-- C16: what the code does. With a predicate that is false on the ticks `1` to `n` and true
on tick `n + 1`: when the action runs to its end, it runs exactly once, on tick `n + 1`, the
timer is cancelled on that tick, and on no later tick is the predicate or the action
evaluated. When the action raises on tick `n + 1`, `clearInterval` is not reached: the timer
is not cancelled, and with the predicate still true on tick `n + 2` the action runs a second
time. -/
theorem poller_runs (ready completes : Nat → Bool) (n : Nat)
    (hnot : ∀ t, 1 ≤ t → t ≤ n → ready t = false) (hready : ready (n + 1) = true) :
    (completes (n + 1) = true → ∀ m,
      runPoller ready completes (n + 1 + m) =
        ⟨true, (List.range n).map (fun t => .predicate (t + 1) false) ++
          [.predicate (n + 1) true, .action (n + 1) true, .clearInterval (n + 1)]⟩ ∧
      actionRuns (runPoller ready completes (n + 1 + m)) = 1) ∧
    (completes (n + 1) = false → ready (n + 2) = true →
      (runPoller ready completes (n + 1)).cleared = false ∧
      actionRuns (runPoller ready completes (n + 2)) = 2) := by
  have hfirst : runPoller ready completes (n + 1) =
      pollerTick ready completes
        ⟨false, (List.range n).map (fun t => .predicate (t + 1) false)⟩ (n + 1) := by
    rw [runPoller_succ, runPoller_waiting ready completes n hnot]
  refine ⟨?_, ?_⟩
  · intro hc m
    have hdone : runPoller ready completes (n + 1) =
        ⟨true, (List.range n).map (fun t => .predicate (t + 1) false) ++
          [.predicate (n + 1) true, .action (n + 1) true, .clearInterval (n + 1)]⟩ := by
      rw [hfirst]
      simp [pollerTick, hready, hc]
    have hall := runPoller_cleared ready completes (n + 1) (by rw [hdone]) m
    rw [hall, hdone]
    refine ⟨rfl, ?_⟩
    simp [actionRuns, List.filter_append, filter_action_waiting, List.filter_cons]
  · intro hc hnext
    have hfail : runPoller ready completes (n + 1) =
        ⟨false, (List.range n).map (fun t => .predicate (t + 1) false) ++
          [.predicate (n + 1) true, .action (n + 1) false]⟩ := by
      rw [hfirst]
      simp [pollerTick, hready, hc]
    refine ⟨by rw [hfail], ?_⟩
    rw [runPoller_succ, hfail]
    cases hc2 : completes (n + 1 + 1) <;>
      simp [pollerTick, hnext, hc2, actionRuns, List.filter_append, filter_action_waiting,
        List.filter_cons]

/-- C16 at the failing input: with `pb.api.texts` present and `pb.api.texts.objs` absent, the
predicate of the poller of `registerTextsProxy` holds and `new Proxy(undefined, ...)` raises;
after two ticks the action has run twice and the timer is still running. A poller whose
action completes on the third tick has run it once after five ticks. -/
theorem poller_runs_witness :
    textsReady (.obj 1 [("api", .obj 2 [("texts", .obj 3 [])])]) = true ∧
    textsProxyCompletes (.obj 1 [("api", .obj 2 [("texts", .obj 3 [])])]) = false ∧
    actionRuns (runPoller
      (fun _ => textsReady (.obj 1 [("api", .obj 2 [("texts", .obj 3 [])])]))
      (fun _ => textsProxyCompletes (.obj 1 [("api", .obj 2 [("texts", .obj 3 [])])])) 2) = 2 ∧
    actionRuns (runPoller (fun t => decide (2 < t)) (fun _ => true) 5) = 1 :=
  ⟨rfl, rfl,
   ((poller_runs
      (fun _ => textsReady (.obj 1 [("api", .obj 2 [("texts", .obj 3 [])])]))
      (fun _ => textsProxyCompletes (.obj 1 [("api", .obj 2 [("texts", .obj 3 [])])])) 0
      (fun t h1 h2 => absurd h1 (by omega)) rfl).2 rfl rfl).2,
   ((poller_runs (fun t => decide (2 < t)) (fun _ => true) 2
      (fun t _ h2 => by simp; omega) rfl).1 rfl 2).2⟩

end PbForDesktop
